import Mathlib

set_option linter.unusedVariables false

/-
  Verification of the voice-agent client (complete-voice-agent.js).

  Shallow embedding of the turn-taking state machine, the jitter-buffer
  playback scheduler and the message dispatcher.  The embedding mirrors the
  JavaScript source: the module-level mutable variables become fields of
  `AgentState`, each handler becomes a state-transformation function, and
  `setTimeout` becomes an explicit list of pending timers that a
  discrete-event driver fires in expiry order.

  Conventions:
  - Wall/timer time is measured in milliseconds, as in the source
    (`setTimeout` delays 15000, 2000..5000, 8000).  The audio output clock
    (`audioContext.currentTime`) runs in seconds; `audioClock` converts a
    wall time to the audio clock reading at that moment (context created at
    wall time 0).  The proved properties do not depend on this mapping.
  - A base64 audio payload is modelled as the byte list it decodes to
    (`atob` is total on the wire payloads considered here).
  - Fields below the `observation logs` marker are ghost logs: they record
    occurrences (scheduled intervals, buffering flips, guard firings,
    header strips, surfaced connection notices) so that properties can be
    stated; no handler branches on them to decide real behaviour.
-/

namespace VoiceAgent

/-- Conversation phases of the turn-taking state machine
(the `conversationState` global of the source). -/
inductive CState
  | idle
  | listening
  | processing
  | speaking
  | ending
deriving DecidableEq

/-- Speakers recorded in the chat history (`sender` field). -/
inductive Speaker
  | user
  | ai
deriving DecidableEq

/-- One entry of `chatHistory` as pushed by `addMessageToChat`. -/
structure ChatEntry where
  sender : Speaker
  message : String
  timestamp : ℤ
deriving DecidableEq

/-- The kinds of `setTimeout` callbacks the source creates:
the 15000 ms stuck-phase safety timeout of `handleAudioChunk`,
the drain-delay timeout of `handleAudioComplete`, and
the goodbye timeout of `endConversation`. -/
inductive TimerKind
  | guard
  | drain
  | goodbye
deriving DecidableEq

/-- A pending `setTimeout` callback with its absolute expiry time (ms). -/
structure Timer where
  expiry : ℤ
  kind : TimerKind
deriving DecidableEq

/-- The module-level mutable state of complete-voice-agent.js. -/
structure AgentState where
  conversationState : CState
  isConversationActive : Bool
  chatHistory : List ChatEntry
  statusDisplay : String
  websocketOpen : Bool
  captureContextOpen : Bool
  /-- `audioPlaybackContext` is non-null and open. -/
  audioPlaybackContext : Bool
  audioPlayheadTime : ℚ
  audioBufferQueue : List (List ℚ)
  isBuffering : Bool
  isAudioPlaying : Bool
  wavHeaderProcessed : Bool
  pendingTimers : List Timer
  -- observation logs (ghost): never branched on by the handlers
  /-- every `source.start` call as a pair (start time, duration), in order. -/
  scheduled : List (ℚ × ℚ)
  /-- number of times `isBuffering` was flipped from true to false. -/
  bufferFlips : ℕ
  /-- number of stuck-phase safety timers armed. -/
  guardTimersSet : ℕ
  /-- number of times an armed stuck-phase timer actually fired. -/
  guardFires : ℕ
  /-- true when some stuck-phase timer fired after a proper
  `audio_complete` message had already been processed. -/
  guardAfterComplete : Bool
  /-- number of `audio_complete` messages processed by the dispatcher. -/
  audioCompleteMsgs : ℕ
  /-- number of times a 44-byte header strip was applied. -/
  headerStrips : ℕ
  /-- every successfully decoded, non-empty payload pushed to the queue. -/
  decodedLog : List (List ℚ)
  /-- number of connection-lost or connection-error notices surfaced. -/
  connLostNotices : ℕ
deriving DecidableEq

/-- `bufferThreshold` global: minimum queued chunks before playback starts. -/
def bufferThreshold : ℕ := 3

/-- `AUDIO_SAMPLE_RATE` global. -/
def AUDIO_SAMPLE_RATE : ℚ := 44100

/-- The audio output clock (seconds) as a function of wall time (ms);
the playback context is created at wall time 0 here. -/
def audioClock (now : ℤ) : ℚ := (now : ℚ) / 1000

/-- `DataView.getInt16(_, true)`: two little-endian bytes to a signed
16-bit integer. -/
def int16OfBytes (lo hi : ℕ) : ℤ :=
  let u : ℤ := (lo : ℤ) + 256 * (hi : ℤ)
  if u < 32768 then u else u - 65536

/-- Normalisation of one decoded 16-bit sample to a float in the playback
path: `float32Array[i] = int16 / 32768.0`. -/
def int16ToFloat (v : ℤ) : ℚ := (v : ℚ) / 32768

/-- Decode a byte list as consecutive little-endian 16-bit samples,
normalised by 32768 (the sample loop of `base64ToPCMFloat32`). -/
def pcmSamples : List ℕ → List ℚ
  | lo :: hi :: rest => int16ToFloat (int16OfBytes lo hi) :: pcmSamples rest
  | _ => []

/-- `base64ToPCMFloat32`, pure part: given the current `wavHeaderProcessed`
flag and the payload bytes, either fail (`null`: negative buffer length or a
fractional `Float32Array` length raise, and are caught) or produce the
decoded samples.  The flag update itself is done by the caller
`handleAudioChunk`, which is where the source's single call site is. -/
def base64ToPCMFloat32 (wavHeaderProcessed : Bool) (bytes : List ℕ) :
    Option (List ℚ) :=
  let offset := if wavHeaderProcessed then 0 else 44
  if bytes.length < offset then none
  else if (bytes.length - offset) % 2 = 1 then none
  else some (pcmSamples (bytes.drop offset))

/-- JavaScript `ToInt16` truncation toward zero (after the source's own
clamping the value is already in 16-bit range, so no wrapping occurs). -/
def ratTrunc (q : ℚ) : ℤ := if 0 ≤ q then ⌊q⌋ else ⌈q⌉

/-- The capture path of `processor.onaudioprocess`:
`outputData[i] = Math.max(-32768, Math.min(32767, inputData[i] * 32768))`
stored into an `Int16Array` (truncation toward zero). -/
def encodeSample (x : ℚ) : ℤ :=
  ratTrunc (max (-32768) (min 32767 (x * 32768)))

/-- `closeConnections`. -/
def closeConnections (s : AgentState) : AgentState :=
  { s with captureContextOpen := false, websocketOpen := false,
           audioPlaybackContext := false }

/-- `resetToIdle`. -/
def resetToIdle (s : AgentState) : AgentState :=
  closeConnections
    { s with conversationState := .idle, isConversationActive := false }

/-- `resetAudioPlaybackState`. -/
def resetAudioPlaybackState (now : ℤ) (s : AgentState) : AgentState :=
  { s with
    audioPlayheadTime :=
      if s.audioPlaybackContext then audioClock now + 1/10 else 0,
    audioBufferQueue := [],
    isBuffering := true,
    isAudioPlaying := false,
    wavHeaderProcessed := false }

/-- `initializeAudioPlayback`: ensures the playback context exists, then
always calls `resetAudioPlaybackState`. -/
def initializeAudioPlayback (now : ℤ) (s : AgentState) : AgentState :=
  resetAudioPlaybackState now { s with audioPlaybackContext := true }

/-- `scheduleChunkAtPlayhead`: snap the playhead to `now + 0.01` when it is
at or behind the output clock, start the source there, and advance the
playhead by the buffer duration `chunk.length / AUDIO_SAMPLE_RATE`.
A missing or closed context returns early; an empty chunk makes
`createBuffer` throw, which the source catches. -/
def scheduleChunkAtPlayhead (now : ℤ) (chunk : List ℚ) (s : AgentState) :
    AgentState :=
  if s.audioPlaybackContext = false then s
  else if chunk.length = 0 then s
  else
    let dur := (chunk.length : ℚ) / AUDIO_SAMPLE_RATE
    let t := audioClock now
    let start := if s.audioPlayheadTime ≤ t then t + 1/100
                 else s.audioPlayheadTime
    { s with audioPlayheadTime := start + dur,
             scheduled := s.scheduled ++ [(start, dur)] }

/-- The bounded dequeue loop of `processBufferedChunks`: shift and schedule
`k` chunks. -/
def processChunksAux (now : ℤ) : ℕ → AgentState → AgentState
  | 0, s => s
  | k + 1, s =>
    match s.audioBufferQueue with
    | [] => s
    | c :: rest =>
      processChunksAux now k
        (scheduleChunkAtPlayhead now c { s with audioBufferQueue := rest })

/-- `processBufferedChunks`: dequeue at most 5 chunks and schedule each at
the playhead. -/
def processBufferedChunks (now : ℤ) (s : AgentState) : AgentState :=
  processChunksAux now (min s.audioBufferQueue.length 5) s

/-- `startBufferedPlayback`: with no context, reinitialize and return;
otherwise process the buffered chunks (a suspended context is resumed and
then processes the chunks; the resumption is immediate here). -/
def startBufferedPlayback (now : ℤ) (s : AgentState) : AgentState :=
  if s.audioPlaybackContext = false then initializeAudioPlayback now s
  else processBufferedChunks now s

/-- First step of `handleAudioChunk`: force the Speaking phase when not
already in it. -/
def hacPhase (s : AgentState) : AgentState :=
  if s.conversationState = .speaking then s
  else { s with conversationState := .speaking,
                statusDisplay := "AI is speaking" }

/-- The `wavHeaderProcessed := true` side effect of the
`base64ToPCMFloat32` call (performed on its first invocation). -/
def hacFlag (s : AgentState) : AgentState :=
  if s.wavHeaderProcessed then s
  else { s with wavHeaderProcessed := true,
                headerStrips := s.headerStrips + 1 }

/-- Queueing step of `handleAudioChunk` for a decoded payload: push a
non-empty decode, start playback when the buffering threshold is reached,
or keep draining the queue when already playing. -/
def hacEnqueue (now : ℤ) (pcm : List ℚ) (s : AgentState) : AgentState :=
  if 0 < pcm.length then
    let sq := { s with
                audioBufferQueue := s.audioBufferQueue ++ [pcm],
                decodedLog := s.decodedLog ++ [pcm] }
    if sq.isBuffering ∧ bufferThreshold ≤ sq.audioBufferQueue.length then
      startBufferedPlayback now
        { sq with isBuffering := false, isAudioPlaying := true,
                  bufferFlips := sq.bufferFlips + 1 }
    else if sq.isBuffering = false then processBufferedChunks now sq
    else sq
  else s

/-- Completion-detection step of `handleAudioChunk`: the first time
`isAudioPlaying` is false, set it and arm the 15000 ms stuck-phase safety
timeout. -/
def hacArmGuard (now : ℤ) (s : AgentState) : AgentState :=
  if s.isAudioPlaying then s
  else { s with
         isAudioPlaying := true,
         pendingTimers := s.pendingTimers ++ [⟨now + 15000, .guard⟩],
         guardTimersSet := s.guardTimersSet + 1 }

/-- `handleAudioChunk`: force the Speaking phase, decode the payload
(stripping 44 header bytes exactly when `wavHeaderProcessed` is still
false, and setting that flag), enqueue a non-empty decode, start playback
at the buffering threshold or keep draining the queue, and arm the 15000 ms
stuck-phase safety timeout the first time `isAudioPlaying` is false. -/
def handleAudioChunk (now : ℤ) (bytes : List ℕ) (s : AgentState) :
    AgentState :=
  hacArmGuard now
    (match base64ToPCMFloat32 (hacPhase s).wavHeaderProcessed bytes with
     | none => hacFlag (hacPhase s)
     | some pcm => hacEnqueue now pcm (hacFlag (hacPhase s)))

/-- `handleAudioComplete`: flush remaining buffered chunks, then arm the
drain-delay timeout `Math.max(2000, Math.min(total_chunks * 1000, 5000))`
milliseconds from now. -/
def handleAudioComplete (now : ℤ) (totalChunks : ℕ) (s : AgentState) :
    AgentState :=
  let s1 := if 0 < s.audioBufferQueue.length then processBufferedChunks now s
            else s
  let waitTime : ℤ := max 2000 (min ((1000 * totalChunks : ℕ) : ℤ) 5000)
  { s1 with statusDisplay := "AI finishing response",
            pendingTimers := s1.pendingTimers ++ [⟨now + waitTime, .drain⟩] }

/-- `handleTurnComplete`: unconditionally enter Processing and append one
user turn carrying the final transcript. -/
def handleTurnComplete (now : ℤ) (finalTranscript : String)
    (s : AgentState) : AgentState :=
  { s with conversationState := .processing,
           statusDisplay := "Processing your message",
           chatHistory :=
             s.chatHistory ++ [⟨.user, finalTranscript, now⟩] }

/-- `endConversation`: enter Ending, deactivate the session, send the
goodbye control message, and arm the 8000 ms goodbye timeout.  Nothing is
cancelled, cleared or reset here. -/
def endConversation (now : ℤ) (s : AgentState) : AgentState :=
  { s with conversationState := .ending,
           isConversationActive := false,
           statusDisplay := "AI saying goodbye",
           pendingTimers := s.pendingTimers ++ [⟨now + 8000, .goodbye⟩] }

/-- The `websocket.onclose` handler: only while the conversation is active,
surface the connection-lost notice and reset to Idle. -/
def onWsClose (s : AgentState) : AgentState :=
  if s.isConversationActive then
    resetToIdle { s with statusDisplay := "Connection lost",
                         connLostNotices := s.connLostNotices + 1 }
  else s

/-- The `websocket.onerror` handler: unconditionally surface the
connection-error notice and reset to Idle. -/
def onWsError (s : AgentState) : AgentState :=
  resetToIdle { s with statusDisplay := "Connection error",
                       connLostNotices := s.connLostNotices + 1 }

/-- Fire one expired `setTimeout` callback. -/
def fireTimer (now : ℤ) : TimerKind → AgentState → AgentState
  | .guard, s =>
    -- the safety timeout of handleAudioChunk
    if s.conversationState = .speaking ∧ s.isConversationActive then
      handleAudioComplete now (s.audioBufferQueue.length + 1)
        { s with guardFires := s.guardFires + 1,
                 guardAfterComplete :=
                   s.guardAfterComplete || (s.audioCompleteMsgs != 0) }
    else s
  | .drain, s =>
    -- the drain-delay timeout of handleAudioComplete
    let s1 := { s with isBuffering := true, isAudioPlaying := false }
    if s1.isConversationActive ∧ s1.conversationState = .speaking then
      { s1 with conversationState := .listening,
                statusDisplay := "Ready for your next message" }
    else s1
  | .goodbye, s =>
    -- the goodbye timeout of endConversation
    { resetToIdle (closeConnections s) with
      statusDisplay := "Conversation ended" }

/-- Inbound control messages, classified by the `type` tag
(`handleWebSocketMessage`); a base64 audio payload is carried as its
decoded byte list. -/
inductive Msg
  | connection
  | sessionOpened
  | transcript (text : String)
  | turnComplete (finalTranscript : String)
  | chatStarted (userMessage : String)
  | audioChunk (bytes : List ℕ)
  | llmResponseComplete (text : String)
  | chatComplete
  | audioComplete (totalChunks : ℕ)
  | conversationEnded
  | error (message : String)
  | unknown
deriving DecidableEq

/-- `handleWebSocketMessage`: the dispatcher switch. -/
def handleWebSocketMessage (now : ℤ) : Msg → AgentState → AgentState
  | .connection, s => { s with statusDisplay := "Connected" }
  | .sessionOpened, s => { s with statusDisplay := "Session ready" }
  | .transcript _, s =>
    if s.conversationState = .listening then
      { s with statusDisplay := "Listening" }
    else s
  | .turnComplete t, s => handleTurnComplete now t s
  | .chatStarted _, s =>
    initializeAudioPlayback now { s with statusDisplay := "AI is thinking" }
  | .audioChunk b, s => handleAudioChunk now b s
  | .llmResponseComplete t, s =>
    { s with chatHistory := s.chatHistory ++ [⟨.ai, t, now⟩] }
  | .chatComplete, s => resetAudioPlaybackState now s
  | .audioComplete n, s =>
    handleAudioComplete now n
      { s with audioCompleteMsgs := s.audioCompleteMsgs + 1 }
  | .conversationEnded, s =>
    { s with statusDisplay := "Thank you for the conversation" }
  | .error _, s => { s with statusDisplay := "Error" }
  | .unknown, s => s

/-- External occurrences the driver feeds in: an inbound message, the user
clicking End (the button in phases listening, processing, speaking calls
`endConversation`), and transport closure or error. -/
inductive Event
  | msg (m : Msg)
  | userEnd
  | wsClose
  | wsError
deriving DecidableEq

/-- Dispatch one external event. -/
def handleEvent (now : ℤ) : Event → AgentState → AgentState
  | .msg m, s => handleWebSocketMessage now m s
  | .userEnd, s =>
    if s.conversationState = .listening ∨ s.conversationState = .processing
        ∨ s.conversationState = .speaking then
      endConversation now s
    else s
  | .wsClose, s => onWsClose s
  | .wsError, s => onWsError s

/-- Select the pending timer with the smallest expiry (creation order on
ties, as timers are appended on creation), returning it and the remaining
list in order. -/
def pickMin : Timer → List Timer → Timer × List Timer
  | x, [] => (x, [])
  | x, y :: ys =>
    if y.expiry < x.expiry then
      ((pickMin y ys).1, x :: (pickMin y ys).2)
    else
      ((pickMin x ys).1, y :: (pickMin x ys).2)

/-- Fire the earliest due timer, if any timer is due at wall time `t`. -/
def fireDueStep (t : ℤ) (s : AgentState) : Option AgentState :=
  match s.pendingTimers with
  | [] => none
  | x :: xs =>
    if (pickMin x xs).1.expiry ≤ t then
      some (fireTimer (pickMin x xs).1.expiry (pickMin x xs).1.kind
        { s with pendingTimers := (pickMin x xs).2 })
    else none

/-- Fire all timers due at wall time `t`, earliest first; `fuel` bounds the
number of firings (each firing removes one timer and arms at most one). -/
def fireDue : ℕ → ℤ → AgentState → AgentState
  | 0, _, s => s
  | fuel + 1, t, s =>
    match fireDueStep t s with
    | none => s
    | some s1 => fireDue fuel t s1

/-- Discrete-event driver: before each external event, fire the timers due
by its arrival time, then dispatch it. -/
def run : AgentState → List (ℤ × Event) → AgentState
  | s, [] => s
  | s, (t, e) :: rest => run (handleEvent t e (fireDue 20 t s)) rest

/-- Run a trace and then fire every timer due by the `horizon` time. -/
def runTo (horizon : ℤ) (s : AgentState) (trace : List (ℤ × Event)) :
    AgentState :=
  fireDue 20 horizon (run s trace)

/-- The initial values of the module-level globals. -/
def initState : AgentState where
  conversationState := .idle
  isConversationActive := false
  chatHistory := []
  statusDisplay := "Ready"
  websocketOpen := false
  captureContextOpen := false
  audioPlaybackContext := false
  audioPlayheadTime := 0
  audioBufferQueue := []
  isBuffering := true
  isAudioPlaying := false
  wavHeaderProcessed := false
  pendingTimers := []
  scheduled := []
  bufferFlips := 0
  guardTimersSet := 0
  guardFires := 0
  guardAfterComplete := false
  audioCompleteMsgs := 0
  headerStrips := 0
  decodedLog := []
  connLostNotices := 0

/-- The state right after `startConversation` succeeded: listening, active,
channel open, capture running (the playback context is created later by
`chat_started`). -/
def listeningState : AgentState :=
  { initState with
    conversationState := .listening,
    isConversationActive := true,
    websocketOpen := true,
    captureContextOpen := true }

/-- Fold the audio-chunk handler over a list of timed payloads: the
audio-chunk events processed within one Speaking phase. -/
def playChunks (s : AgentState) (tr : List (ℤ × List ℕ)) : AgentState :=
  tr.foldl (fun st p => handleAudioChunk p.1 p.2 st) s

/-- A payload whose decode succeeds and is non-empty whether or not the
header has been stripped yet: even length and at least 46 bytes. -/
def validPayload (b : List ℕ) : Prop := b.length % 2 = 0 ∧ 46 ≤ b.length

instance (b : List ℕ) : Decidable (validPayload b) := by
  unfold validPayload
  infer_instance

/-! ### Frame lemmas: the scheduling functions only move the playhead,
the schedule log and (for the dequeue loop) the queue -/

@[simp]
theorem scheduleChunk_frame (now : ℤ) (c : List ℚ) (s : AgentState) :
    (scheduleChunkAtPlayhead now c s).audioPlaybackContext
        = s.audioPlaybackContext ∧
    (scheduleChunkAtPlayhead now c s).audioBufferQueue
        = s.audioBufferQueue ∧
    (scheduleChunkAtPlayhead now c s).isBuffering = s.isBuffering ∧
    (scheduleChunkAtPlayhead now c s).isAudioPlaying = s.isAudioPlaying ∧
    (scheduleChunkAtPlayhead now c s).wavHeaderProcessed
        = s.wavHeaderProcessed ∧
    (scheduleChunkAtPlayhead now c s).conversationState
        = s.conversationState ∧
    (scheduleChunkAtPlayhead now c s).isConversationActive
        = s.isConversationActive ∧
    (scheduleChunkAtPlayhead now c s).bufferFlips = s.bufferFlips ∧
    (scheduleChunkAtPlayhead now c s).headerStrips = s.headerStrips ∧
    (scheduleChunkAtPlayhead now c s).decodedLog = s.decodedLog ∧
    (scheduleChunkAtPlayhead now c s).pendingTimers = s.pendingTimers ∧
    (scheduleChunkAtPlayhead now c s).guardTimersSet = s.guardTimersSet ∧
    (scheduleChunkAtPlayhead now c s).guardFires = s.guardFires ∧
    (scheduleChunkAtPlayhead now c s).guardAfterComplete
        = s.guardAfterComplete ∧
    (scheduleChunkAtPlayhead now c s).connLostNotices = s.connLostNotices ∧
    (scheduleChunkAtPlayhead now c s).audioCompleteMsgs
        = s.audioCompleteMsgs ∧
    (scheduleChunkAtPlayhead now c s).chatHistory = s.chatHistory := by
  unfold scheduleChunkAtPlayhead
  split
  · simp
  · split <;> simp

@[simp]
theorem processChunksAux_frame (now : ℤ) (k : ℕ) (s : AgentState) :
    (processChunksAux now k s).audioPlaybackContext
        = s.audioPlaybackContext ∧
    (processChunksAux now k s).isBuffering = s.isBuffering ∧
    (processChunksAux now k s).isAudioPlaying = s.isAudioPlaying ∧
    (processChunksAux now k s).wavHeaderProcessed = s.wavHeaderProcessed ∧
    (processChunksAux now k s).conversationState = s.conversationState ∧
    (processChunksAux now k s).isConversationActive
        = s.isConversationActive ∧
    (processChunksAux now k s).bufferFlips = s.bufferFlips ∧
    (processChunksAux now k s).headerStrips = s.headerStrips ∧
    (processChunksAux now k s).decodedLog = s.decodedLog ∧
    (processChunksAux now k s).pendingTimers = s.pendingTimers ∧
    (processChunksAux now k s).guardTimersSet = s.guardTimersSet ∧
    (processChunksAux now k s).guardFires = s.guardFires ∧
    (processChunksAux now k s).guardAfterComplete = s.guardAfterComplete ∧
    (processChunksAux now k s).connLostNotices = s.connLostNotices ∧
    (processChunksAux now k s).audioCompleteMsgs = s.audioCompleteMsgs ∧
    (processChunksAux now k s).chatHistory = s.chatHistory := by
  induction k generalizing s with
  | zero => simp [processChunksAux]
  | succ k ih =>
    rw [processChunksAux]
    split
    · simp
    · next c rest hq =>
      simpa using
        ih (scheduleChunkAtPlayhead now c { s with audioBufferQueue := rest })

@[simp]
theorem processBufferedChunks_frame (now : ℤ) (s : AgentState) :
    (processBufferedChunks now s).audioPlaybackContext
        = s.audioPlaybackContext ∧
    (processBufferedChunks now s).isBuffering = s.isBuffering ∧
    (processBufferedChunks now s).isAudioPlaying = s.isAudioPlaying ∧
    (processBufferedChunks now s).wavHeaderProcessed
        = s.wavHeaderProcessed ∧
    (processBufferedChunks now s).conversationState
        = s.conversationState ∧
    (processBufferedChunks now s).isConversationActive
        = s.isConversationActive ∧
    (processBufferedChunks now s).bufferFlips = s.bufferFlips ∧
    (processBufferedChunks now s).headerStrips = s.headerStrips ∧
    (processBufferedChunks now s).decodedLog = s.decodedLog ∧
    (processBufferedChunks now s).pendingTimers = s.pendingTimers ∧
    (processBufferedChunks now s).guardTimersSet = s.guardTimersSet ∧
    (processBufferedChunks now s).guardFires = s.guardFires ∧
    (processBufferedChunks now s).guardAfterComplete = s.guardAfterComplete ∧
    (processBufferedChunks now s).connLostNotices = s.connLostNotices ∧
    (processBufferedChunks now s).audioCompleteMsgs = s.audioCompleteMsgs ∧
    (processBufferedChunks now s).chatHistory = s.chatHistory := by
  unfold processBufferedChunks
  exact processChunksAux_frame now _ s

theorem startBuffered_eq_process (now : ℤ) (s : AgentState)
    (h : s.audioPlaybackContext = true) :
    startBufferedPlayback now s = processBufferedChunks now s := by
  unfold startBufferedPlayback
  rw [if_neg]
  simp [h]

/-! ### Claim C1: the scheduled intervals never overlap -/

/-- Scheduling invariant within a Speaking phase: every scheduled interval
ends at or before the playhead, has non-negative duration, and the logged
intervals are pairwise non-overlapping with non-decreasing starts. -/
def SchedInv (s : AgentState) : Prop :=
  (∀ x ∈ s.scheduled, x.1 + x.2 ≤ s.audioPlayheadTime) ∧
    (∀ x ∈ s.scheduled, 0 ≤ x.2) ∧
    List.Pairwise (fun a b : ℚ × ℚ => a.1 + a.2 ≤ b.1 ∧ a.1 ≤ b.1)
      s.scheduled

instance (s : AgentState) : Decidable (SchedInv s) := by
  unfold SchedInv
  infer_instance

theorem schedInv_congr (s s' : AgentState)
    (hsch : s'.scheduled = s.scheduled)
    (hph : s'.audioPlayheadTime = s.audioPlayheadTime)
    (h : SchedInv s) : SchedInv s' := by
  unfold SchedInv at h ⊢
  rw [hsch, hph]
  exact h

theorem schedInv_extend (s : AgentState) (st dur : ℚ)
    (h : SchedInv s) (hstart : s.audioPlayheadTime ≤ st) (hdur : 0 ≤ dur) :
    SchedInv { s with audioPlayheadTime := st + dur,
                      scheduled := s.scheduled ++ [(st, dur)] } := by
  obtain ⟨h1, h2, h3⟩ := h
  refine ⟨?_, ?_, ?_⟩
  · intro x hx
    simp only [List.mem_append, List.mem_singleton] at hx
    rcases hx with hx | hx
    · have := h1 x hx
      show x.1 + x.2 ≤ st + dur
      linarith
    · subst hx
      show st + dur ≤ st + dur
      exact le_refl _
  · intro x hx
    simp only [List.mem_append, List.mem_singleton] at hx
    rcases hx with hx | hx
    · exact h2 x hx
    · subst hx
      exact hdur
  · show List.Pairwise _ (s.scheduled ++ [(st, dur)])
    rw [List.pairwise_append]
    refine ⟨h3, by simp, ?_⟩
    intro a ha b hb
    simp only [List.mem_singleton] at hb
    subst hb
    have hend := h1 a ha
    have hd := h2 a ha
    refine ⟨?_, ?_⟩
    · show a.1 + a.2 ≤ st
      linarith
    · show a.1 ≤ st
      linarith

theorem scheduleChunk_schedInv (now : ℤ) (c : List ℚ) (s : AgentState)
    (h : SchedInv s) : SchedInv (scheduleChunkAtPlayhead now c s) := by
  by_cases hctx : s.audioPlaybackContext = false
  · rw [scheduleChunkAtPlayhead, if_pos hctx]
    exact h
  · by_cases hlen : c.length = 0
    · rw [scheduleChunkAtPlayhead, if_neg hctx, if_pos hlen]
      exact h
    · have hdur : (0 : ℚ) ≤ (c.length : ℚ) / AUDIO_SAMPLE_RATE := by
        rw [AUDIO_SAMPLE_RATE]
        positivity
      by_cases hple : s.audioPlayheadTime ≤ audioClock now
      · have heq : scheduleChunkAtPlayhead now c s =
            { s with
              audioPlayheadTime := (audioClock now + 1/100) +
                (c.length : ℚ) / AUDIO_SAMPLE_RATE,
              scheduled := s.scheduled ++
                [(audioClock now + 1/100,
                  (c.length : ℚ) / AUDIO_SAMPLE_RATE)] } := by
          rw [scheduleChunkAtPlayhead, if_neg hctx, if_neg hlen]
          dsimp only
          rw [if_pos hple]
        rw [heq]
        exact schedInv_extend s _ _ h (by linarith) hdur
      · have heq : scheduleChunkAtPlayhead now c s =
            { s with
              audioPlayheadTime := s.audioPlayheadTime +
                (c.length : ℚ) / AUDIO_SAMPLE_RATE,
              scheduled := s.scheduled ++
                [(s.audioPlayheadTime,
                  (c.length : ℚ) / AUDIO_SAMPLE_RATE)] } := by
          rw [scheduleChunkAtPlayhead, if_neg hctx, if_neg hlen]
          dsimp only
          rw [if_neg hple]
        rw [heq]
        exact schedInv_extend s _ _ h (le_refl _) hdur

theorem processChunksAux_schedInv (now : ℤ) (k : ℕ) (s : AgentState)
    (h : SchedInv s) : SchedInv (processChunksAux now k s) := by
  induction k generalizing s with
  | zero => simpa [processChunksAux] using h
  | succ k ih =>
    rw [processChunksAux]
    split
    · exact h
    · next c rest hq =>
      apply ih
      apply scheduleChunk_schedInv
      exact schedInv_congr _ _ rfl rfl h

theorem processBufferedChunks_schedInv (now : ℤ) (s : AgentState)
    (h : SchedInv s) : SchedInv (processBufferedChunks now s) := by
  unfold processBufferedChunks
  exact processChunksAux_schedInv now _ s h

/-- The combined invariant: the playback context stays available within
the phase, and the schedule log is sound. -/
def GoodSched (s : AgentState) : Prop :=
  s.audioPlaybackContext = true ∧ SchedInv s

instance (s : AgentState) : Decidable (GoodSched s) := by
  unfold GoodSched
  infer_instance

theorem goodSched_congr (s s' : AgentState)
    (hc : s'.audioPlaybackContext = s.audioPlaybackContext)
    (hsch : s'.scheduled = s.scheduled)
    (hph : s'.audioPlayheadTime = s.audioPlayheadTime)
    (h : GoodSched s) : GoodSched s' :=
  ⟨hc.trans h.1, schedInv_congr s s' hsch hph h.2⟩

theorem processBufferedChunks_goodSched (now : ℤ) (s : AgentState)
    (h : GoodSched s) : GoodSched (processBufferedChunks now s) :=
  ⟨((processBufferedChunks_frame now s).1).trans h.1,
    processBufferedChunks_schedInv now s h.2⟩

theorem startBufferedPlayback_goodSched (now : ℤ) (s : AgentState)
    (h : GoodSched s) : GoodSched (startBufferedPlayback now s) := by
  rw [startBuffered_eq_process now s h.1]
  exact processBufferedChunks_goodSched now s h

theorem hacPhase_goodSched (s : AgentState) (h : GoodSched s) :
    GoodSched (hacPhase s) := by
  rw [hacPhase]
  split
  · exact h
  · exact goodSched_congr _ _ rfl rfl rfl h

theorem hacFlag_goodSched (s : AgentState) (h : GoodSched s) :
    GoodSched (hacFlag s) := by
  rw [hacFlag]
  split
  · exact h
  · exact goodSched_congr _ _ rfl rfl rfl h

theorem hacEnqueue_goodSched (now : ℤ) (pcm : List ℚ) (s : AgentState)
    (h : GoodSched s) : GoodSched (hacEnqueue now pcm s) := by
  rw [hacEnqueue]
  dsimp only
  split
  · split
    · exact startBufferedPlayback_goodSched now _
        (goodSched_congr _ _ rfl rfl rfl
          (goodSched_congr _ _ rfl rfl rfl h))
    · split
      · exact processBufferedChunks_goodSched now _
          (goodSched_congr _ _ rfl rfl rfl h)
      · exact goodSched_congr _ _ rfl rfl rfl h
  · exact h

theorem hacArmGuard_goodSched (now : ℤ) (s : AgentState)
    (h : GoodSched s) : GoodSched (hacArmGuard now s) := by
  rw [hacArmGuard]
  split
  · exact h
  · exact goodSched_congr _ _ rfl rfl rfl h

theorem handleAudioChunk_goodSched (now : ℤ) (b : List ℕ) (s : AgentState)
    (h : GoodSched s) : GoodSched (handleAudioChunk now b s) := by
  rw [handleAudioChunk]
  apply hacArmGuard_goodSched
  have h2 : GoodSched (hacFlag (hacPhase s)) :=
    hacFlag_goodSched _ (hacPhase_goodSched s h)
  cases base64ToPCMFloat32 (hacPhase s).wavHeaderProcessed b
  · exact h2
  · exact hacEnqueue_goodSched now _ _ h2

theorem playChunks_goodSched (tr : List (ℤ × List ℕ)) (s : AgentState)
    (h : GoodSched s) : GoodSched (playChunks s tr) := by
  induction tr generalizing s with
  | nil => exact h
  | cons p rest ih => exact ih _ (handleAudioChunk_goodSched p.1 p.2 s h)

/-- Claim C1: for every sequence of audio-chunk events processed within one
Speaking phase (the playback context available and the schedule log sound
at entry), the logged scheduled intervals `[start, start + dur)` are
pairwise non-overlapping and their start times are non-decreasing: each
chunk starts at the current playhead (snapped to `now + 0.01` when the
playhead is at or behind the output clock, see `scheduleChunkAtPlayhead`)
and the playhead then advances by exactly that chunk's duration. -/
theorem scheduled_intervals_nonoverlapping (tr : List (ℤ × List ℕ))
    (s : AgentState) (hctx : s.audioPlaybackContext = true)
    (hinv : SchedInv s) :
    List.Pairwise (fun a b : ℚ × ℚ => a.1 + a.2 ≤ b.1 ∧ a.1 ≤ b.1)
      (playChunks s tr).scheduled :=
  (playChunks_goodSched tr s ⟨hctx, hinv⟩).2.2.2

/-- A well-formed 46-byte payload (44 header bytes plus one 16-bit
sample). -/
def sampleBytes : List ℕ := List.replicate 46 0

/-- A Speaking-phase entry state: the session is listening and active and
`chat_started` has just initialized the playback scheduler. -/
def phaseEntryState : AgentState := initializeAudioPlayback 0 listeningState

/-- Witness for C1: the entry state satisfies the hypotheses, and running
four chunks from it yields a non-overlapping schedule. -/
theorem scheduled_intervals_nonoverlapping_witness :
    (phaseEntryState.audioPlaybackContext = true ∧
      SchedInv phaseEntryState) ∧
      List.Pairwise (fun a b : ℚ × ℚ => a.1 + a.2 ≤ b.1 ∧ a.1 ≤ b.1)
        (playChunks phaseEntryState
          [(100, sampleBytes), (200, sampleBytes),
           (300, sampleBytes), (400, sampleBytes)]).scheduled :=
  ⟨⟨by decide, by decide⟩,
    scheduled_intervals_nonoverlapping
      [(100, sampleBytes), (200, sampleBytes),
       (300, sampleBytes), (400, sampleBytes)]
      phaseEntryState (by decide) (by decide)⟩

/-! ### Frame lemmas for the stages of handleAudioChunk -/

@[simp]
theorem hacPhase_frame (s : AgentState) :
    (hacPhase s).audioPlaybackContext = s.audioPlaybackContext ∧
    (hacPhase s).audioPlayheadTime = s.audioPlayheadTime ∧
    (hacPhase s).audioBufferQueue = s.audioBufferQueue ∧
    (hacPhase s).isBuffering = s.isBuffering ∧
    (hacPhase s).isAudioPlaying = s.isAudioPlaying ∧
    (hacPhase s).wavHeaderProcessed = s.wavHeaderProcessed ∧
    (hacPhase s).scheduled = s.scheduled ∧
    (hacPhase s).bufferFlips = s.bufferFlips ∧
    (hacPhase s).guardTimersSet = s.guardTimersSet ∧
    (hacPhase s).guardFires = s.guardFires ∧
    (hacPhase s).guardAfterComplete = s.guardAfterComplete ∧
    (hacPhase s).audioCompleteMsgs = s.audioCompleteMsgs ∧
    (hacPhase s).headerStrips = s.headerStrips ∧
    (hacPhase s).decodedLog = s.decodedLog ∧
    (hacPhase s).pendingTimers = s.pendingTimers ∧
    (hacPhase s).connLostNotices = s.connLostNotices ∧
    (hacPhase s).isConversationActive = s.isConversationActive ∧
    (hacPhase s).chatHistory = s.chatHistory := by
  rw [hacPhase]
  split <;> simp

theorem hacPhase_conversationState (s : AgentState) :
    (hacPhase s).conversationState = .speaking := by
  rw [hacPhase]
  split
  · next hc => exact hc
  · rfl

@[simp]
theorem hacFlag_frame (s : AgentState) :
    (hacFlag s).audioPlaybackContext = s.audioPlaybackContext ∧
    (hacFlag s).audioPlayheadTime = s.audioPlayheadTime ∧
    (hacFlag s).audioBufferQueue = s.audioBufferQueue ∧
    (hacFlag s).isBuffering = s.isBuffering ∧
    (hacFlag s).isAudioPlaying = s.isAudioPlaying ∧
    (hacFlag s).conversationState = s.conversationState ∧
    (hacFlag s).scheduled = s.scheduled ∧
    (hacFlag s).bufferFlips = s.bufferFlips ∧
    (hacFlag s).guardTimersSet = s.guardTimersSet ∧
    (hacFlag s).guardFires = s.guardFires ∧
    (hacFlag s).guardAfterComplete = s.guardAfterComplete ∧
    (hacFlag s).audioCompleteMsgs = s.audioCompleteMsgs ∧
    (hacFlag s).decodedLog = s.decodedLog ∧
    (hacFlag s).pendingTimers = s.pendingTimers ∧
    (hacFlag s).connLostNotices = s.connLostNotices ∧
    (hacFlag s).isConversationActive = s.isConversationActive ∧
    (hacFlag s).chatHistory = s.chatHistory ∧
    (hacFlag s).statusDisplay = s.statusDisplay := by
  rw [hacFlag]
  split <;> simp

theorem hacFlag_wavHeaderProcessed (s : AgentState) :
    (hacFlag s).wavHeaderProcessed = true := by
  rw [hacFlag]
  split
  · next hc => exact hc
  · rfl

theorem hacFlag_headerStrips (s : AgentState) :
    (hacFlag s).headerStrips =
      s.headerStrips + (if s.wavHeaderProcessed then 0 else 1) := by
  rw [hacFlag]
  split <;> simp_all

@[simp]
theorem hacArmGuard_frame (now : ℤ) (s : AgentState) :
    (hacArmGuard now s).audioPlaybackContext = s.audioPlaybackContext ∧
    (hacArmGuard now s).audioPlayheadTime = s.audioPlayheadTime ∧
    (hacArmGuard now s).audioBufferQueue = s.audioBufferQueue ∧
    (hacArmGuard now s).isBuffering = s.isBuffering ∧
    (hacArmGuard now s).wavHeaderProcessed = s.wavHeaderProcessed ∧
    (hacArmGuard now s).conversationState = s.conversationState ∧
    (hacArmGuard now s).scheduled = s.scheduled ∧
    (hacArmGuard now s).bufferFlips = s.bufferFlips ∧
    (hacArmGuard now s).guardFires = s.guardFires ∧
    (hacArmGuard now s).guardAfterComplete = s.guardAfterComplete ∧
    (hacArmGuard now s).audioCompleteMsgs = s.audioCompleteMsgs ∧
    (hacArmGuard now s).headerStrips = s.headerStrips ∧
    (hacArmGuard now s).decodedLog = s.decodedLog ∧
    (hacArmGuard now s).connLostNotices = s.connLostNotices ∧
    (hacArmGuard now s).isConversationActive = s.isConversationActive ∧
    (hacArmGuard now s).chatHistory = s.chatHistory ∧
    (hacArmGuard now s).statusDisplay = s.statusDisplay := by
  rw [hacArmGuard]
  split <;> simp

theorem hacArmGuard_isAudioPlaying (now : ℤ) (s : AgentState) :
    (hacArmGuard now s).isAudioPlaying = true := by
  rw [hacArmGuard]
  split
  · next hc => exact hc
  · rfl

theorem hacArmGuard_guardTimersSet (now : ℤ) (s : AgentState) :
    (hacArmGuard now s).guardTimersSet =
      s.guardTimersSet + (if s.isAudioPlaying then 0 else 1) := by
  rw [hacArmGuard]
  split <;> simp_all

/-! ### Decoding a well-formed payload -/

theorem pcmSamples_nonempty (l : List ℕ) (h : 2 ≤ l.length) :
    0 < (pcmSamples l).length := by
  cases l with
  | nil => simp at h
  | cons x t =>
    cases t with
    | nil => simp at h
    | cons y r => simp [pcmSamples]

/-- A well-formed payload decodes successfully to a non-empty sample list
no matter whether the header was already stripped. -/
theorem decode_valid (flag : Bool) (b : List ℕ) (h : validPayload b) :
    base64ToPCMFloat32 flag b =
      some (pcmSamples (b.drop (if flag then 0 else 44))) ∧
    0 < (pcmSamples (b.drop (if flag then 0 else 44))).length := by
  obtain ⟨hpar, hlen⟩ := h
  cases flag
  · have h1 : ¬ (b.length < 44) := by omega
    have h2 : ¬ ((b.length - 44) % 2 = 1) := by omega
    constructor
    · simp [base64ToPCMFloat32, h1, h2]
    · have h3 : 2 ≤ (b.drop 44).length := by
        rw [List.length_drop]
        omega
      simpa using pcmSamples_nonempty (b.drop 44) h3
  · have h2 : ¬ ((b.length - 0) % 2 = 1) := by omega
    constructor
    · simp [base64ToPCMFloat32, h2, hpar]
    · have h3 : 2 ≤ b.length := by omega
      simpa using pcmSamples_nonempty b h3

/-- On a well-formed payload, `handleAudioChunk` is the enqueue pipeline on
some non-empty decoded chunk. -/
theorem handleAudioChunk_step (now : ℤ) (b : List ℕ) (s : AgentState)
    (hv : validPayload b) :
    ∃ pcm : List ℚ, 0 < pcm.length ∧
      handleAudioChunk now b s =
        hacArmGuard now (hacEnqueue now pcm (hacFlag (hacPhase s))) := by
  obtain ⟨hd, hn⟩ := decode_valid (hacPhase s).wavHeaderProcessed b hv
  exact ⟨_, hn, by rw [handleAudioChunk, hd]⟩

/-! ### Case analysis of the enqueue step -/

/-- Still buffering and below threshold: the chunk is only queued. -/
theorem hacEnqueue_buffering (now : ℤ) (pcm : List ℚ) (s : AgentState)
    (hp : 0 < pcm.length) (hb : s.isBuffering = true)
    (hlen : s.audioBufferQueue.length + 1 < bufferThreshold) :
    hacEnqueue now pcm s =
      { s with audioBufferQueue := s.audioBufferQueue ++ [pcm],
               decodedLog := s.decodedLog ++ [pcm] } := by
  rw [bufferThreshold] at hlen
  have h3 : ¬ (3 ≤ s.audioBufferQueue.length + 1) := by omega
  simp [hacEnqueue, hp, hb, bufferThreshold, h3]

/-- Buffering and the threshold is reached: flip to playing and schedule. -/
theorem hacEnqueue_flip (now : ℤ) (pcm : List ℚ) (s : AgentState)
    (hp : 0 < pcm.length) (hb : s.isBuffering = true)
    (hctx : s.audioPlaybackContext = true)
    (hlen : bufferThreshold ≤ s.audioBufferQueue.length + 1) :
    hacEnqueue now pcm s =
      processBufferedChunks now
        { s with audioBufferQueue := s.audioBufferQueue ++ [pcm],
                 decodedLog := s.decodedLog ++ [pcm],
                 isBuffering := false, isAudioPlaying := true,
                 bufferFlips := s.bufferFlips + 1 } := by
  rw [bufferThreshold] at hlen
  simp [hacEnqueue, hp, hb, bufferThreshold, hlen, startBufferedPlayback,
    hctx]

/-- Already playing: the chunk is queued and the queue keeps draining. -/
theorem hacEnqueue_playing (now : ℤ) (pcm : List ℚ) (s : AgentState)
    (hp : 0 < pcm.length) (hb : s.isBuffering = false) :
    hacEnqueue now pcm s =
      processBufferedChunks now
        { s with audioBufferQueue := s.audioBufferQueue ++ [pcm],
                 decodedLog := s.decodedLog ++ [pcm] } := by
  simp [hacEnqueue, hp, hb]

/-- The enqueue step always appends exactly the decoded chunk to the
decoded-payload log (when the decode was non-empty). -/
theorem hacEnqueue_decodedLog (now : ℤ) (pcm : List ℚ) (s : AgentState)
    (hp : 0 < pcm.length) :
    (hacEnqueue now pcm s).decodedLog = s.decodedLog ++ [pcm] := by
  rw [hacEnqueue]
  dsimp only
  rw [if_pos hp]
  split
  · rw [startBufferedPlayback]
    split
    · simp [initializeAudioPlayback, resetAudioPlaybackState]
    · simp
  · split <;> simp

/-- The enqueue step never changes the conversation phase. -/
theorem hacEnqueue_conversationState (now : ℤ) (pcm : List ℚ)
    (s : AgentState) :
    (hacEnqueue now pcm s).conversationState = s.conversationState := by
  rw [hacEnqueue]
  dsimp only
  split
  · split
    · rw [startBufferedPlayback]
      split
      · simp [initializeAudioPlayback, resetAudioPlaybackState]
      · simp
    · split <;> simp
  · rfl

/-! ### Claim C2: buffering threshold governs the playback start -/

theorem playChunks_cons (s : AgentState) (p : ℤ × List ℕ)
    (rest : List (ℤ × List ℕ)) :
    playChunks s (p :: rest) = playChunks (handleAudioChunk p.1 p.2 s) rest :=
  rfl

/-- While below the buffering threshold, audio chunks are only queued:
nothing is scheduled, the buffering flag stays set and never flips. -/
theorem playChunks_buffering (tr : List (ℤ × List ℕ)) :
    ∀ s : AgentState, (∀ p ∈ tr, validPayload p.2) →
      s.isBuffering = true → s.audioPlaybackContext = true →
      tr.length + s.audioBufferQueue.length < bufferThreshold →
      (playChunks s tr).isBuffering = true ∧
      (playChunks s tr).scheduled = s.scheduled ∧
      (playChunks s tr).bufferFlips = s.bufferFlips ∧
      (playChunks s tr).audioBufferQueue.length
          = s.audioBufferQueue.length + tr.length ∧
      (playChunks s tr).audioPlaybackContext = true := by
  induction tr with
  | nil =>
    intro s _ hb hctx _
    exact ⟨hb, rfl, rfl, rfl, hctx⟩
  | cons p rest ih =>
    intro s hv hb hctx hlen
    rw [bufferThreshold] at hlen
    simp only [List.length_cons] at hlen
    obtain ⟨pcm, hp, heq⟩ := handleAudioChunk_step p.1 p.2 s (hv p (by simp))
    have hbuf1 : (hacFlag (hacPhase s)).isBuffering = true := by simp [hb]
    have hql : (hacFlag (hacPhase s)).audioBufferQueue.length + 1
        < bufferThreshold := by
      rw [bufferThreshold]
      simp only [hacFlag_frame, hacPhase_frame]
      omega
    have henq := hacEnqueue_buffering p.1 pcm (hacFlag (hacPhase s)) hp
      hbuf1 hql
    rw [playChunks_cons, heq, henq]
    obtain ⟨i1, i2, i3, i4, i5⟩ := ih
      (hacArmGuard p.1
        { hacFlag (hacPhase s) with
          audioBufferQueue := (hacFlag (hacPhase s)).audioBufferQueue ++ [pcm],
          decodedLog := (hacFlag (hacPhase s)).decodedLog ++ [pcm] })
      (fun q hq => hv q (List.mem_cons_of_mem p hq))
      (by simp [hb]) (by simp [hctx])
      (by rw [bufferThreshold]; simp; omega)
    refine ⟨i1, ?_, ?_, ?_, i5⟩
    · rw [i2]
      simp
    · rw [i3]
      simp
    · rw [i4]
      simp
      omega

/-- Once the buffering flag has been cleared, it stays cleared and never
flips again within the phase. -/
theorem playChunks_playing (tr : List (ℤ × List ℕ)) :
    ∀ s : AgentState, (∀ p ∈ tr, validPayload p.2) →
      s.isBuffering = false → s.audioPlaybackContext = true →
      (playChunks s tr).isBuffering = false ∧
      (playChunks s tr).bufferFlips = s.bufferFlips ∧
      (playChunks s tr).audioPlaybackContext = true := by
  induction tr with
  | nil =>
    intro s _ hb hctx
    exact ⟨hb, rfl, hctx⟩
  | cons p rest ih =>
    intro s hv hb hctx
    obtain ⟨pcm, hp, heq⟩ := handleAudioChunk_step p.1 p.2 s (hv p (by simp))
    have henq := hacEnqueue_playing p.1 pcm (hacFlag (hacPhase s)) hp
      (by simp [hb])
    rw [playChunks_cons, heq, henq]
    obtain ⟨j1, j2, j3⟩ := ih
      (hacArmGuard p.1 (processBufferedChunks p.1
        { hacFlag (hacPhase s) with
          audioBufferQueue := (hacFlag (hacPhase s)).audioBufferQueue ++ [pcm],
          decodedLog := (hacFlag (hacPhase s)).decodedLog ++ [pcm] }))
      (fun q hq => hv q (List.mem_cons_of_mem p hq))
      (by simp [hb]) (by simp [hctx])
    refine ⟨j1, ?_, j3⟩
    rw [j2]
    simp

/-- The chunk that reaches the threshold flips the buffering flag exactly
once and starts playback. -/
theorem handleAudioChunk_flipStep (now : ℤ) (b : List ℕ) (s : AgentState)
    (hv : validPayload b) (hb : s.isBuffering = true)
    (hctx : s.audioPlaybackContext = true)
    (hlen : bufferThreshold ≤ s.audioBufferQueue.length + 1) :
    (handleAudioChunk now b s).isBuffering = false ∧
    (handleAudioChunk now b s).bufferFlips = s.bufferFlips + 1 ∧
    (handleAudioChunk now b s).audioPlaybackContext = true := by
  obtain ⟨pcm, hp, heq⟩ := handleAudioChunk_step now b s hv
  have henq := hacEnqueue_flip now pcm (hacFlag (hacPhase s)) hp
    (by simp [hb]) (by simp [hctx]) (by simpa using hlen)
  rw [heq, henq]
  refine ⟨by simp, by simp, by simp [hctx]⟩

/-- Chunk-only threshold behaviour: on a run consisting of audio-chunk
events alone, from an entry state with an empty queue, buffering set and
the scheduler initialized, nothing is scheduled and nothing flips below
`bufferThreshold` decodable chunks, and the flip happens exactly once as
soon as the threshold is reached. -/
theorem playChunks_threshold (tr : List (ℤ × List ℕ))
    (s : AgentState) (hv : ∀ p ∈ tr, validPayload p.2)
    (hb : s.isBuffering = true) (hq : s.audioBufferQueue = [])
    (hf : s.bufferFlips = 0) (hsch : s.scheduled = [])
    (hctx : s.audioPlaybackContext = true) :
    (tr.length < bufferThreshold →
      (playChunks s tr).scheduled = [] ∧
      (playChunks s tr).bufferFlips = 0) ∧
    (bufferThreshold ≤ tr.length → (playChunks s tr).bufferFlips = 1) := by
  constructor
  · intro hlt
    obtain ⟨_, i2, i3, _, _⟩ := playChunks_buffering tr s hv hb hctx
      (by rw [hq]; simpa using hlt)
    exact ⟨i2.trans hsch, i3.trans hf⟩
  · intro hge
    rw [bufferThreshold] at hge
    obtain ⟨a, tr1, rfl⟩ : ∃ a tr1, tr = a :: tr1 := by
      cases tr with
      | nil => simp at hge
      | cons a t => exact ⟨a, t, rfl⟩
    obtain ⟨b2, tr2, rfl⟩ : ∃ b2 tr2, tr1 = b2 :: tr2 := by
      cases tr1 with
      | nil => simp at hge
      | cons a t => exact ⟨a, t, rfl⟩
    obtain ⟨c, tr3, rfl⟩ : ∃ c tr3, tr2 = c :: tr3 := by
      cases tr2 with
      | nil => simp at hge
      | cons a t => exact ⟨a, t, rfl⟩
    obtain ⟨k1, k2, k3, k4, k5⟩ := playChunks_buffering [a, b2] s
      (by
        intro q hq2
        apply hv
        simp only [List.mem_cons, List.mem_singleton] at hq2
        rcases hq2 with h | h | h
        · simp [h]
        · simp [h]
        · simp at h)
      hb hctx (by rw [hq, bufferThreshold]; simp)
    have hflip := handleAudioChunk_flipStep c.1 c.2 (playChunks s [a, b2])
      (hv c (by simp)) k1 k5
      (by
        rw [bufferThreshold]
        rw [hq] at k4
        simp at k4
        omega)
    have hflipval :
        (handleAudioChunk c.1 c.2 (playChunks s [a, b2])).bufferFlips = 1 := by
      rw [hflip.2.1, k3, hf]
    obtain ⟨m1, m2, m3⟩ := playChunks_playing tr3
      (handleAudioChunk c.1 c.2 (playChunks s [a, b2]))
      (fun q hq2 => hv q (by simp [hq2]))
      hflip.1 hflip.2.2
    have h2 : playChunks s [a, b2] =
        handleAudioChunk b2.1 b2.2 (handleAudioChunk a.1 a.2 s) := by
      rw [playChunks_cons, playChunks_cons]
      rfl
    rw [playChunks_cons, playChunks_cons, playChunks_cons, ← h2, m2]
    exact hflipval

/-- One successful `source.start` per scheduled non-empty chunk. -/
theorem scheduleChunk_schedCount (now : ℤ) (c : List ℚ) (s : AgentState)
    (hctx : s.audioPlaybackContext = true) (hc : c ≠ []) :
    (scheduleChunkAtPlayhead now c s).scheduled.length
      = s.scheduled.length + 1 := by
  rw [scheduleChunkAtPlayhead]
  rw [if_neg (by simp [hctx]),
    if_neg (by simpa [List.length_eq_zero] using hc)]
  dsimp only
  simp

/-- The dequeue loop schedules exactly the `k` chunks it shifts. -/
theorem processChunksAux_schedCount (now : ℤ) :
    ∀ (k : ℕ) (s : AgentState), s.audioPlaybackContext = true →
      (∀ c ∈ s.audioBufferQueue, c ≠ []) →
      k ≤ s.audioBufferQueue.length →
      (processChunksAux now k s).scheduled.length
        = s.scheduled.length + k := by
  intro k
  induction k with
  | zero =>
    intro s _ _ _
    simp [processChunksAux]
  | succ k ih =>
    intro s hctx hne hk
    rw [processChunksAux]
    split
    · next hq =>
      rw [hq] at hk
      simp at hk
    · next c rest hq =>
      have hc : c ≠ [] := hne c (by rw [hq]; exact List.mem_cons_self c rest)
      have hsched : (scheduleChunkAtPlayhead now c
          { s with audioBufferQueue := rest }).scheduled.length
          = s.scheduled.length + 1 :=
        scheduleChunk_schedCount now c { s with audioBufferQueue := rest }
          hctx hc
      have hctx2 : (scheduleChunkAtPlayhead now c
          { s with audioBufferQueue := rest }).audioPlaybackContext
          = true := by
        simp [hctx]
      have hqeq : (scheduleChunkAtPlayhead now c
          { s with audioBufferQueue := rest }).audioBufferQueue = rest := by
        simp
      have hne2 : ∀ c' ∈ (scheduleChunkAtPlayhead now c
          { s with audioBufferQueue := rest }).audioBufferQueue, c' ≠ [] := by
        intro c' hc'
        rw [hqeq] at hc'
        exact hne c' (by rw [hq]; exact List.mem_cons_of_mem c hc')
      have hk2 : k ≤ (scheduleChunkAtPlayhead now c
          { s with audioBufferQueue := rest }).audioBufferQueue.length := by
        rw [hqeq]
        rw [hq] at hk
        simp at hk
        omega
      rw [ih _ hctx2 hne2 hk2, hsched]
      omega

/-- `processBufferedChunks` schedules min(queue length, 5) chunks,
whatever the buffering state. -/
theorem processBufferedChunks_schedCount (now : ℤ) (s : AgentState)
    (hctx : s.audioPlaybackContext = true)
    (hne : ∀ c ∈ s.audioBufferQueue, c ≠ []) :
    (processBufferedChunks now s).scheduled.length
      = s.scheduled.length + min s.audioBufferQueue.length 5 := by
  rw [processBufferedChunks]
  exact processChunksAux_schedCount now _ s hctx hne (min_le_left _ _)

/-! ### Field behaviour of the enqueue step -/

theorem hacEnqueue_headerStrips (now : ℤ) (pcm : List ℚ) (s : AgentState) :
    (hacEnqueue now pcm s).headerStrips = s.headerStrips := by
  rw [hacEnqueue]
  dsimp only
  split
  · split
    · rw [startBufferedPlayback]
      split
      · simp [initializeAudioPlayback, resetAudioPlaybackState]
      · simp
    · split <;> simp
  · rfl

theorem hacEnqueue_ctx (now : ℤ) (pcm : List ℚ) (s : AgentState)
    (h : s.audioPlaybackContext = true) :
    (hacEnqueue now pcm s).audioPlaybackContext = true := by
  rw [hacEnqueue]
  dsimp only
  split
  · split
    · rw [startBufferedPlayback]
      split
      · simp [initializeAudioPlayback, resetAudioPlaybackState]
      · simp [h]
    · split <;> simp [h]
  · exact h

theorem hacEnqueue_flag (now : ℤ) (pcm : List ℚ) (s : AgentState)
    (h : s.audioPlaybackContext = true) :
    (hacEnqueue now pcm s).wavHeaderProcessed = s.wavHeaderProcessed := by
  rw [hacEnqueue]
  dsimp only
  split
  · split
    · rw [startBufferedPlayback]
      split
      · next hc =>
        simp [h] at hc
      · simp
    · split <;> simp
  · rfl

/-- `handleAudioChunk` on a well-formed payload when the header has
already been stripped: the payload decodes in full, no bytes removed. -/
theorem handleAudioChunk_step_true (now : ℤ) (b : List ℕ) (s : AgentState)
    (hv : validPayload b) (hf : s.wavHeaderProcessed = true) :
    handleAudioChunk now b s =
      hacArmGuard now
        (hacEnqueue now (pcmSamples b) (hacFlag (hacPhase s))) ∧
    0 < (pcmSamples b).length := by
  have hfp : (hacPhase s).wavHeaderProcessed = true := by simp [hf]
  obtain ⟨hd, hn⟩ := decode_valid true b hv
  constructor
  · rw [handleAudioChunk, hfp,
      (by simpa using hd :
        base64ToPCMFloat32 true b = some (pcmSamples b))]
  · simpa using hn

/-- `handleAudioChunk` on a well-formed payload when the header has not
been stripped yet: exactly 44 bytes are removed before decoding. -/
theorem handleAudioChunk_step_false (now : ℤ) (b : List ℕ) (s : AgentState)
    (hv : validPayload b) (hf : s.wavHeaderProcessed = false) :
    handleAudioChunk now b s =
      hacArmGuard now
        (hacEnqueue now (pcmSamples (b.drop 44)) (hacFlag (hacPhase s))) ∧
    0 < (pcmSamples (b.drop 44)).length := by
  have hfp : (hacPhase s).wavHeaderProcessed = false := by simp [hf]
  obtain ⟨hd, hn⟩ := decode_valid false b hv
  constructor
  · rw [handleAudioChunk, hfp,
      (by simpa using hd :
        base64ToPCMFloat32 false b = some (pcmSamples (b.drop 44)))]
  · simpa using hn

/-! ### Claim C5: header stripping within a Speaking phase -/

/-- Once the header flag is set and the scheduler is initialized, every
further chunk of the phase is decoded in full (offset 0), the flag stays
set, and no further strip happens. -/
theorem playChunks_raw (tr : List (ℤ × List ℕ)) :
    ∀ s : AgentState, (∀ p ∈ tr, validPayload p.2) →
      s.wavHeaderProcessed = true → s.audioPlaybackContext = true →
      (playChunks s tr).decodedLog
          = s.decodedLog ++ tr.map (fun p => pcmSamples p.2) ∧
      (playChunks s tr).wavHeaderProcessed = true ∧
      (playChunks s tr).headerStrips = s.headerStrips ∧
      (playChunks s tr).audioPlaybackContext = true := by
  induction tr with
  | nil =>
    intro s _ hf hctx
    exact ⟨by simp [playChunks], hf, rfl, hctx⟩
  | cons p rest ih =>
    intro s hv hf hctx
    obtain ⟨heq, hp⟩ :=
      handleAudioChunk_step_true p.1 p.2 s (hv p (by simp)) hf
    rw [playChunks_cons, heq]
    have hctx1 : (hacFlag (hacPhase s)).audioPlaybackContext = true := by
      simp [hctx]
    have hstepctx : (hacArmGuard p.1 (hacEnqueue p.1 (pcmSamples p.2)
        (hacFlag (hacPhase s)))).audioPlaybackContext = true := by
      have h1 := hacEnqueue_ctx p.1 (pcmSamples p.2) _ hctx1
      simp [h1]
    have hstepflag : (hacArmGuard p.1 (hacEnqueue p.1 (pcmSamples p.2)
        (hacFlag (hacPhase s)))).wavHeaderProcessed = true := by
      have h1 := hacEnqueue_flag p.1 (pcmSamples p.2) _ hctx1
      have h2 := hacFlag_wavHeaderProcessed (hacPhase s)
      simp [h1, h2]
    obtain ⟨i1, i2, i3, i4⟩ := ih
      (hacArmGuard p.1
        (hacEnqueue p.1 (pcmSamples p.2) (hacFlag (hacPhase s))))
      (fun q hq => hv q (List.mem_cons_of_mem p hq)) hstepflag hstepctx
    refine ⟨?_, i2, ?_, i4⟩
    · rw [i1]
      have hlog : (hacArmGuard p.1 (hacEnqueue p.1 (pcmSamples p.2)
          (hacFlag (hacPhase s)))).decodedLog
          = s.decodedLog ++ [pcmSamples p.2] := by
        have h1 : (hacArmGuard p.1 (hacEnqueue p.1 (pcmSamples p.2)
            (hacFlag (hacPhase s)))).decodedLog
            = (hacEnqueue p.1 (pcmSamples p.2)
                (hacFlag (hacPhase s))).decodedLog := by
          simp
        rw [h1, hacEnqueue_decodedLog _ _ _ hp]
        simp
      rw [hlog]
      simp
    · rw [i3]
      have h1 : (hacArmGuard p.1 (hacEnqueue p.1 (pcmSamples p.2)
          (hacFlag (hacPhase s)))).headerStrips
          = (hacEnqueue p.1 (pcmSamples p.2)
              (hacFlag (hacPhase s))).headerStrips := by
        simp
      rw [h1, hacEnqueue_headerStrips, hacFlag_headerStrips]
      simp [hf]

/-- The expected decoded-payload log of one Speaking phase: the first
payload is decoded after removing the 44-byte container header, every
later payload is decoded in full. -/
def decodeExpected : List (ℤ × List ℕ) → List (List ℚ)
  | [] => []
  | p :: rest => pcmSamples (p.2.drop 44) :: rest.map (fun q => pcmSamples q.2)

/-- Claim C5 (amended): each payload arriving while the header flag is
clear has 44 bytes stripped, and the flag stays set for the rest of the
phase, so from a reset (flag clear, scheduler initialized) exactly the
first payload of the run is stripped and all later payloads are decoded in
full; however the flag is reset not only at phase entry but also whenever
`chat_complete` is processed (see `resetAudioPlaybackState` in
`handleChatComplete`). -/
theorem header_strip_once_per_reset (tr : List (ℤ × List ℕ))
    (s : AgentState) (hv : ∀ p ∈ tr, validPayload p.2)
    (hf : s.wavHeaderProcessed = false)
    (hctx : s.audioPlaybackContext = true) :
    ((playChunks s tr).decodedLog = s.decodedLog ++ decodeExpected tr ∧
      (playChunks s tr).headerStrips = s.headerStrips + min tr.length 1) ∧
    (∀ (t : ℤ) (s2 : AgentState),
      (handleWebSocketMessage t .chatComplete s2).wavHeaderProcessed
        = false) := by
  refine ⟨?_, ?_⟩
  · cases tr with
    | nil => simp [playChunks, decodeExpected]
    | cons p rest =>
      obtain ⟨heq, hp⟩ :=
        handleAudioChunk_step_false p.1 p.2 s (hv p (by simp)) hf
      rw [playChunks_cons, heq]
      have hctx1 : (hacFlag (hacPhase s)).audioPlaybackContext = true := by
        simp [hctx]
      have hstepctx : (hacArmGuard p.1 (hacEnqueue p.1
          (pcmSamples (p.2.drop 44))
          (hacFlag (hacPhase s)))).audioPlaybackContext = true := by
        have h1 := hacEnqueue_ctx p.1 (pcmSamples (p.2.drop 44)) _ hctx1
        simp [h1]
      have hstepflag : (hacArmGuard p.1 (hacEnqueue p.1
          (pcmSamples (p.2.drop 44))
          (hacFlag (hacPhase s)))).wavHeaderProcessed = true := by
        have h1 := hacEnqueue_flag p.1 (pcmSamples (p.2.drop 44)) _ hctx1
        have h2 := hacFlag_wavHeaderProcessed (hacPhase s)
        simp [h1, h2]
      obtain ⟨i1, _, i3, _⟩ := playChunks_raw rest
        (hacArmGuard p.1 (hacEnqueue p.1 (pcmSamples (p.2.drop 44))
          (hacFlag (hacPhase s))))
        (fun q hq => hv q (List.mem_cons_of_mem p hq)) hstepflag hstepctx
      have hlog : (hacArmGuard p.1 (hacEnqueue p.1
          (pcmSamples (p.2.drop 44)) (hacFlag (hacPhase s)))).decodedLog
          = s.decodedLog ++ [pcmSamples (p.2.drop 44)] := by
        have h1 : (hacArmGuard p.1 (hacEnqueue p.1
            (pcmSamples (p.2.drop 44)) (hacFlag (hacPhase s)))).decodedLog
            = (hacEnqueue p.1 (pcmSamples (p.2.drop 44))
                (hacFlag (hacPhase s))).decodedLog := by
          simp
        rw [h1, hacEnqueue_decodedLog _ _ _ hp]
        simp
      have hstr : (hacArmGuard p.1 (hacEnqueue p.1
          (pcmSamples (p.2.drop 44)) (hacFlag (hacPhase s)))).headerStrips
          = s.headerStrips + 1 := by
        have h1 : (hacArmGuard p.1 (hacEnqueue p.1
            (pcmSamples (p.2.drop 44)) (hacFlag (hacPhase s)))).headerStrips
            = (hacEnqueue p.1 (pcmSamples (p.2.drop 44))
                (hacFlag (hacPhase s))).headerStrips := by
          simp
        rw [h1, hacEnqueue_headerStrips, hacFlag_headerStrips]
        simp [hf]
      constructor
      · rw [i1, hlog, decodeExpected]
        simp
      · rw [i3, hstr]
        simp
  · intro t s2
    show (resetAudioPlaybackState t s2).wavHeaderProcessed = false
    simp [resetAudioPlaybackState]

/-- Witness for the amended C5 at two concrete payloads from the entry
state. -/
theorem header_strip_once_per_reset_witness :
    ((∀ p ∈ ([(0, sampleBytes), (1, sampleBytes)] : List (ℚ × List ℕ)),
        validPayload p.2) ∧
      phaseEntryState.wavHeaderProcessed = false ∧
      phaseEntryState.audioPlaybackContext = true) ∧
    (((playChunks phaseEntryState
          [(0, sampleBytes), (1, sampleBytes)]).decodedLog
        = phaseEntryState.decodedLog ++
          decodeExpected [(0, sampleBytes), (1, sampleBytes)] ∧
      (playChunks phaseEntryState
          [(0, sampleBytes), (1, sampleBytes)]).headerStrips
        = phaseEntryState.headerStrips +
          min ([(0, sampleBytes), (1, sampleBytes)] :
            List (ℤ × List ℕ)).length 1) ∧
      (∀ (t : ℤ) (s2 : AgentState),
        (handleWebSocketMessage t .chatComplete s2).wavHeaderProcessed
          = false)) :=
  ⟨⟨by decide, by decide, by decide⟩,
    header_strip_once_per_reset [(0, sampleBytes), (1, sampleBytes)]
      phaseEntryState (by decide) (by decide) (by decide)⟩

/-- Fold the dispatcher over a list of timed inbound messages. -/
def playMsgs (s : AgentState) (tr : List (ℤ × Msg)) : AgentState :=
  tr.foldl (fun st p => handleWebSocketMessage p.1 p.2 st) s

/-- The interleaving that breaks C5 as stated: `chat_started`, one chunk,
`chat_complete`, one more chunk, all within a single Speaking phase. -/
def c5Trace : List (ℤ × Msg) :=
  [(0, .chatStarted "hi"), (1, .audioChunk sampleBytes),
   (2, .chatComplete), (3, .audioChunk sampleBytes)]

/-- Counterexample to C5 as stated: in the run `chat_started`, chunk,
`chat_complete`, chunk, the phase is Speaking from the first chunk onward
and never leaves Speaking, yet the 44-byte header strip is applied twice
(the second payload of the same Speaking phase also loses 44 bytes),
because `handleChatComplete` resets `wavHeaderProcessed` mid-phase. -/
theorem header_stripped_twice_in_one_phase :
    (playMsgs listeningState c5Trace).headerStrips = 2 ∧
      (playMsgs listeningState (c5Trace.take 2)).conversationState
        = .speaking ∧
      (playMsgs listeningState (c5Trace.take 3)).conversationState
        = .speaking ∧
      (playMsgs listeningState c5Trace).conversationState = .speaking := by
  refine ⟨by decide, by decide, by decide, by decide⟩

/-! ### Claim C10: audio chunks are accepted in any phase -/

/-- Claim C10: in any conversation phase other than Speaking (Idle,
Ending, Listening with no preceding `turn_complete`, ...), an
`audio_chunk` message whose payload decodes to a non-empty chunk sets the
phase to Speaking and enqueues the decoded payload; the handler imposes no
precondition on the phase. -/
theorem audioChunk_any_phase (now : ℤ) (b : List ℕ) (s : AgentState)
    (v : List ℚ)
    (hd : base64ToPCMFloat32 s.wavHeaderProcessed b = some v)
    (hv : v ≠ []) (hphase : s.conversationState ≠ .speaking) :
    (handleWebSocketMessage now (.audioChunk b) s).conversationState
        = .speaking ∧
    (handleWebSocketMessage now (.audioChunk b) s).decodedLog
        = s.decodedLog ++ [v] := by
  have hstep : handleWebSocketMessage now (.audioChunk b) s
      = handleAudioChunk now b s := rfl
  have hfp : (hacPhase s).wavHeaderProcessed = s.wavHeaderProcessed := by
    simp
  have hp : 0 < v.length := by
    cases v
    · simp at hv
    · simp
  rw [hstep, handleAudioChunk, hfp, hd]
  dsimp only
  constructor
  · have h1 : (hacArmGuard now
        (hacEnqueue now v (hacFlag (hacPhase s)))).conversationState
        = (hacEnqueue now v (hacFlag (hacPhase s))).conversationState := by
      simp
    rw [h1, hacEnqueue_conversationState]
    simp [hacPhase_conversationState]
  · have h2 : (hacArmGuard now
        (hacEnqueue now v (hacFlag (hacPhase s)))).decodedLog
        = (hacEnqueue now v (hacFlag (hacPhase s))).decodedLog := by
      simp
    rw [h2, hacEnqueue_decodedLog _ _ _ hp]
    simp

/-- Witness for C10 from the Idle state. -/
theorem audioChunk_any_phase_witness :
    (base64ToPCMFloat32 initState.wavHeaderProcessed sampleBytes
        = some (pcmSamples (sampleBytes.drop 44)) ∧
      pcmSamples (sampleBytes.drop 44) ≠ [] ∧
      initState.conversationState ≠ CState.speaking) ∧
    ((handleWebSocketMessage 0 (.audioChunk sampleBytes)
        initState).conversationState = .speaking ∧
      (handleWebSocketMessage 0 (.audioChunk sampleBytes)
        initState).decodedLog
        = initState.decodedLog ++ [pcmSamples (sampleBytes.drop 44)]) := by
  have hflag : initState.wavHeaderProcessed = false := rfl
  have hd : base64ToPCMFloat32 initState.wavHeaderProcessed sampleBytes
      = some (pcmSamples (sampleBytes.drop 44)) := by
    rw [hflag]
    simpa using (decode_valid false sampleBytes (by decide)).1
  have hne : pcmSamples (sampleBytes.drop 44) ≠ [] := by
    have hpos := (decode_valid false sampleBytes (by decide)).2
    simp only [Bool.false_eq_true, if_false] at hpos
    exact List.length_pos.mp hpos
  exact ⟨⟨hd, hne, by decide⟩,
    audioChunk_any_phase 0 sampleBytes initState _ hd hne (by decide)⟩

/-! ### Claim C2: the buffering threshold -/

/-- The routine short response that breaks C2 as stated: `chat_started`,
only two chunks, then `audio_complete`, which flushes the queue with no
buffering check. -/
def c2ShortTrace : List (ℤ × Msg) :=
  [(0, .chatStarted "hi"), (1, .audioChunk sampleBytes),
   (2, .audioChunk sampleBytes), (3, .audioComplete 2)]

/-- A Speaking phase with a mid-phase `chat_complete` followed by more
chunks: the buffering flag is re-armed and flips a second time. -/
def c2TwoFlipTrace : List (ℤ × Msg) :=
  [(0, .chatStarted "hi"), (1, .audioChunk sampleBytes),
   (2, .audioChunk sampleBytes), (3, .audioChunk sampleBytes),
   (4, .chatComplete), (5, .audioChunk sampleBytes),
   (6, .audioChunk sampleBytes), (7, .audioChunk sampleBytes)]

/-- Counterexample to C2 as stated: in the short-response run the phase is
Speaking from the first chunk to the end and the queue only ever received
two decodable chunks, yet two intervals are scheduled (the unconditional
flush of `handleAudioComplete`) and the buffering-to-playing flip never
happened; and in the run with a mid-phase `chat_complete` the flip
happens twice within the same Speaking phase. -/
theorem audio_scheduled_below_threshold :
    ((playMsgs listeningState (c2ShortTrace.take 2)).conversationState
        = .speaking ∧
      (playMsgs listeningState c2ShortTrace).conversationState
        = .speaking ∧
      (playMsgs listeningState c2ShortTrace).decodedLog.length = 2 ∧
      (playMsgs listeningState c2ShortTrace).scheduled.length = 2 ∧
      (playMsgs listeningState c2ShortTrace).bufferFlips = 0) ∧
    ((playMsgs listeningState (c2TwoFlipTrace.take 2)).conversationState
        = .speaking ∧
      (playMsgs listeningState c2TwoFlipTrace).conversationState
        = .speaking ∧
      (playMsgs listeningState c2TwoFlipTrace).bufferFlips = 2) :=
  ⟨⟨by decide, by decide, by decide, by decide, by decide⟩,
    by decide, by decide, by decide⟩

/-- Claim C2 (amended): within one Speaking phase the audio-chunk handler
itself schedules nothing until the queue has received `bufferThreshold`
(3) decodable chunks since phase entry, and flips `isBuffering` exactly
once when the threshold is reached; however `audio_complete` flushes the
buffered queue unconditionally — scheduling the pending chunks even when
fewer than threshold chunks arrived, and never flipping `isBuffering` —
and `chat_complete` re-arms buffering mid-phase, so the flip can occur
again within the same Speaking phase. -/
theorem buffering_threshold_amended :
    (∀ (tr : List (ℤ × List ℕ)) (s : AgentState),
      (∀ p ∈ tr, validPayload p.2) →
      s.isBuffering = true → s.audioBufferQueue = [] →
      s.bufferFlips = 0 → s.scheduled = [] →
      s.audioPlaybackContext = true →
      (tr.length < bufferThreshold →
        (playChunks s tr).scheduled = [] ∧
        (playChunks s tr).bufferFlips = 0) ∧
      (bufferThreshold ≤ tr.length → (playChunks s tr).bufferFlips = 1)) ∧
    (∀ (t : ℤ) (n : ℕ) (s : AgentState),
      s.audioPlaybackContext = true →
      (∀ c ∈ s.audioBufferQueue, c ≠ []) →
      (handleWebSocketMessage t (.audioComplete n) s).bufferFlips
          = s.bufferFlips ∧
      (handleWebSocketMessage t (.audioComplete n) s).isBuffering
          = s.isBuffering ∧
      (handleWebSocketMessage t (.audioComplete n) s).scheduled.length
          = s.scheduled.length + min s.audioBufferQueue.length 5) ∧
    (∀ (t : ℤ) (s : AgentState),
      (handleWebSocketMessage t .chatComplete s).isBuffering = true) := by
  refine ⟨playChunks_threshold, ?_, ?_⟩
  · intro t n s hctx hne
    show (handleAudioComplete t n
          { s with audioCompleteMsgs := s.audioCompleteMsgs + 1 }).bufferFlips
        = s.bufferFlips ∧
      (handleAudioComplete t n
          { s with audioCompleteMsgs := s.audioCompleteMsgs + 1 }).isBuffering
        = s.isBuffering ∧
      (handleAudioComplete t n
          { s with
            audioCompleteMsgs := s.audioCompleteMsgs + 1 }).scheduled.length
        = s.scheduled.length + min s.audioBufferQueue.length 5
    rw [handleAudioComplete]
    dsimp only
    split
    · next hq =>
      refine ⟨by simp, by simp, ?_⟩
      have hcount := processBufferedChunks_schedCount t
        { s with audioCompleteMsgs := s.audioCompleteMsgs + 1 } hctx hne
      simpa using hcount
    · next hq =>
      refine ⟨rfl, rfl, ?_⟩
      have hq0 : s.audioBufferQueue.length = 0 := by
        simpa using hq
      simp [hq0]
  · intro t s
    show (resetAudioPlaybackState t s).isBuffering = true
    rfl

/-- Witness for the amended C2: from a freshly initialized Speaking
phase, three well-formed chunks make the buffering flag flip exactly
once, and an `audio_complete` on the entry state flips nothing. -/
theorem buffering_threshold_amended_witness :
    (phaseEntryState.isBuffering = true ∧
      phaseEntryState.audioBufferQueue = [] ∧
      phaseEntryState.bufferFlips = 0 ∧
      phaseEntryState.scheduled = [] ∧
      phaseEntryState.audioPlaybackContext = true ∧
      (∀ c ∈ phaseEntryState.audioBufferQueue, c ≠ [])) ∧
    (playChunks phaseEntryState
        [(0, sampleBytes), (1, sampleBytes), (2, sampleBytes)]).bufferFlips
      = 1 ∧
    (handleWebSocketMessage 3 (.audioComplete 2)
        phaseEntryState).bufferFlips = phaseEntryState.bufferFlips :=
  ⟨⟨by decide, by decide, by decide, by decide, by decide, by decide⟩,
    (buffering_threshold_amended.1
        [(0, sampleBytes), (1, sampleBytes), (2, sampleBytes)]
        phaseEntryState (by decide) (by decide) (by decide) (by decide)
        (by decide) (by decide)).2 (by decide),
    (buffering_threshold_amended.2.1 3 2 phaseEntryState (by decide)
        (by decide)).1⟩

/-! ### Claim C9: turn_complete appends a user turn -/

/-- Claim C9 (amended): processing a `turn_complete` message with a final
transcript in the Listening phase transitions to Processing and appends
exactly one user turn carrying that transcript; the dispatcher however
does not enforce that this happen before Speaking-phase events
(`audio_chunk` is accepted in any phase, see the counterexample and C10). -/
theorem turnComplete_appends_user_turn (now : ℤ) (txt : String)
    (s : AgentState) (hl : s.conversationState = .listening) :
    (handleWebSocketMessage now (.turnComplete txt) s).conversationState
        = .processing ∧
    (handleWebSocketMessage now (.turnComplete txt) s).chatHistory
        = s.chatHistory ++ [⟨.user, txt, now⟩] :=
  ⟨rfl, rfl⟩

/-- Witness for the amended C9 from the Listening state. -/
theorem turnComplete_appends_user_turn_witness :
    listeningState.conversationState = .listening ∧
    ((handleWebSocketMessage 0 (.turnComplete "What is the weather")
        listeningState).conversationState = .processing ∧
      (handleWebSocketMessage 0 (.turnComplete "What is the weather")
        listeningState).chatHistory
        = listeningState.chatHistory ++ [⟨.user, "What is the weather", 0⟩]) :=
  ⟨rfl,
    turnComplete_appends_user_turn 0 "What is the weather" listeningState rfl⟩

/-- Counterexample to the ordering part of C9: from the Listening state
with no prior `turn_complete` (the history is empty), an `audio_chunk` is
accepted: the phase becomes Speaking and the decoded chunk is queued, even
though the Listening-to-Processing transition never happened. -/
theorem speaking_event_accepted_without_turnComplete :
    listeningState.conversationState = .listening ∧
    listeningState.chatHistory = [] ∧
    (handleWebSocketMessage 0 (.audioChunk sampleBytes)
        listeningState).conversationState = .speaking ∧
    (handleWebSocketMessage 0 (.audioChunk sampleBytes)
        listeningState).chatHistory = [] ∧
    (handleWebSocketMessage 0 (.audioChunk sampleBytes)
        listeningState).audioBufferQueue.length = 1 :=
  ⟨rfl, rfl, by decide, by decide, by decide⟩

/-! ### Claim C8: transport failure handling -/

/-- Claim C8 (amended): a channel closure while the session is active
drives the machine to Idle and surfaces exactly one connection-lost
notice; a closure while inactive surfaces nothing; a transport error
however unconditionally surfaces a connection notice and forces Idle,
active or not; and an error followed by the close it provokes surfaces
exactly one notice in total. -/
theorem transport_failure_resets_to_idle (s : AgentState) :
    (s.isConversationActive = true →
      (onWsClose s).conversationState = .idle ∧
      (onWsClose s).isConversationActive = false ∧
      (onWsClose s).connLostNotices = s.connLostNotices + 1) ∧
    (s.isConversationActive = false → onWsClose s = s) ∧
    ((onWsError s).conversationState = .idle ∧
      (onWsError s).isConversationActive = false ∧
      (onWsError s).connLostNotices = s.connLostNotices + 1) ∧
    (onWsClose (onWsError s)).connLostNotices = s.connLostNotices + 1 := by
  refine ⟨?_, ?_, ?_, ?_⟩
  · intro ha
    simp [onWsClose, ha, resetToIdle, closeConnections]
  · intro ha
    simp [onWsClose, ha]
  · simp [onWsError, resetToIdle, closeConnections]
  · simp [onWsError, onWsClose, resetToIdle, closeConnections]

/-- Witness for the amended C8: an active close surfaces one notice and
idles; an inactive close is a no-op. -/
theorem transport_failure_resets_to_idle_witness :
    (listeningState.isConversationActive = true ∧
      ((onWsClose listeningState).conversationState = .idle ∧
        (onWsClose listeningState).isConversationActive = false ∧
        (onWsClose listeningState).connLostNotices
          = listeningState.connLostNotices + 1)) ∧
    (initState.isConversationActive = false ∧
      onWsClose initState = initState) :=
  ⟨⟨rfl, (transport_failure_resets_to_idle listeningState).1 rfl⟩,
    ⟨rfl, (transport_failure_resets_to_idle initState).2.1 rfl⟩⟩

/-- Counterexample to C8 as stated: with the session inactive, a transport
error still surfaces a connection notice and resets the machine, because
the `onerror` handler is unconditional. -/
theorem connection_notice_when_inactive :
    initState.isConversationActive = false ∧
    (handleEvent 0 .wsError initState).connLostNotices
      = initState.connLostNotices + 1 :=
  ⟨rfl, by decide⟩

/-! ### Claim C4: drain delay from audio_complete -/

/-- The selected timer is one of the pending timers. -/
theorem pickMin_fst_mem (x : Timer) (ys : List Timer) :
    (pickMin x ys).1 = x ∨ (pickMin x ys).1 ∈ ys := by
  induction ys generalizing x with
  | nil => left; rfl
  | cons y ys ih =>
    rw [pickMin]
    split
    · rcases ih y with h | h
      · right
        simp [h]
      · right
        simp [h]
    · rcases ih x with h | h
      · left
        exact h
      · right
        simp [h]

/-- Claim C4: an `audio_complete` carrying `total_chunks = n` arms the
drain-delay timer exactly `max 2000 (min (n * 1000) 5000)` ms in the
future (for n = 4 that is 4000 ms, within the configured bounds 2000 and
5000); the drain callback performs the Speaking-to-Listening transition
only if the session is still active and the phase still Speaking; and no
pending timer fires before its expiry. -/
theorem audioComplete_drain_delay :
    (∀ (t : ℤ) (n : ℕ) (s : AgentState),
      (handleWebSocketMessage t (.audioComplete n) s).pendingTimers
        = s.pendingTimers ++
            [⟨t + max 2000 (min ((1000 * n : ℕ) : ℤ) 5000), .drain⟩]) ∧
    ((max 2000 (min ((1000 * 4 : ℕ) : ℤ) 5000) = 4000) ∧
      (2000 : ℤ) ≤ max 2000 (min ((1000 * 4 : ℕ) : ℤ) 5000) ∧
      max 2000 (min ((1000 * 4 : ℕ) : ℤ) 5000) ≤ 5000) ∧
    (∀ (t : ℤ) (s : AgentState),
      (fireTimer t .drain s).conversationState =
        if s.isConversationActive = true ∧ s.conversationState = .speaking
        then .listening else s.conversationState) ∧
    (∀ (fuel : ℕ) (t : ℤ) (s : AgentState),
      (∀ timer ∈ s.pendingTimers, t < timer.expiry) →
      fireDue fuel t s = s) := by
  refine ⟨?_, ?_, ?_, ?_⟩
  · intro t n s
    show (handleAudioComplete t n
        { s with audioCompleteMsgs := s.audioCompleteMsgs + 1 }).pendingTimers
      = _
    rw [handleAudioComplete]
    dsimp only
    split <;> simp
  · refine ⟨by norm_num, by norm_num, by norm_num⟩
  · intro t s
    rw [fireTimer]
    dsimp only
    by_cases hc : s.isConversationActive = true ∧ s.conversationState = .speaking
    · rw [if_pos hc, if_pos hc]
    · rw [if_neg hc, if_neg hc]
  · intro fuel t s h
    cases fuel with
    | zero => rfl
    | succ fuel =>
      rw [fireDue]
      have hstep : fireDueStep t s = none := by
        rw [fireDueStep]
        cases hq : s.pendingTimers with
        | nil => rfl
        | cons x xs =>
          dsimp only
          rw [if_neg]
          rw [not_le]
          apply h
          rw [hq]
          rcases pickMin_fst_mem x xs with hm | hm
          · simp [hm]
          · simp [hm]
      rw [hstep]

/-- Witness for C4: from the Idle state (no pending timers) nothing fires
early, and `audio_complete` with 4 chunks arms the drain timer 4000 ms
out. -/
theorem audioComplete_drain_delay_witness :
    (∀ timer ∈ initState.pendingTimers, (0 : ℤ) < timer.expiry) ∧
    fireDue 5 0 initState = initState ∧
    (handleWebSocketMessage 0 (.audioComplete 4) initState).pendingTimers
      = initState.pendingTimers ++
          [⟨0 + max 2000 (min ((1000 * 4 : ℕ) : ℤ) 5000), .drain⟩] :=
  ⟨by simp [initState], audioComplete_drain_delay.2.2.2 5 0 initState
      (by simp [initState]),
    audioComplete_drain_delay.1 0 4 initState⟩

/-! ### Claim C7: teardown cancels nothing -/

/-- Claim C7 (amended): `endConversation` enters Ending and deactivates
the session but cancels nothing: every pending timer survives (with the
goodbye timer appended), the PlaybackQueue keeps its chunks and the
playhead keeps its value. After this teardown no stale timer drives the
state machine: the stuck-phase guard is a complete no-op and the drain
callback leaves both the phase and the schedule log unchanged. -/
theorem teardown_cancels_nothing (now t : ℤ) (s : AgentState) :
    ((endConversation now s).audioBufferQueue = s.audioBufferQueue ∧
      (endConversation now s).audioPlayheadTime = s.audioPlayheadTime ∧
      (endConversation now s).pendingTimers
        = s.pendingTimers ++ [⟨now + 8000, .goodbye⟩] ∧
      (endConversation now s).conversationState = .ending ∧
      (endConversation now s).isConversationActive = false) ∧
    fireTimer t .guard (endConversation now s) = endConversation now s ∧
    ((fireTimer t .drain (endConversation now s)).conversationState
        = .ending ∧
      (fireTimer t .drain (endConversation now s)).scheduled
        = (endConversation now s).scheduled) := by
  refine ⟨⟨rfl, rfl, rfl, rfl, rfl⟩, ?_, ?_⟩
  · rw [fireTimer]
    rw [if_neg]
    simp [endConversation]
  · rw [fireTimer]
    dsimp only
    rw [if_neg]
    · exact ⟨rfl, rfl⟩
    · simp [endConversation]

/-- The run that breaks C7 as stated: initialize, receive two chunks
(still buffering), then the user ends the conversation. -/
def c7Trace : List (ℤ × Event) :=
  [(0, .msg (.chatStarted "hi")), (1, .msg (.audioChunk sampleBytes)),
   (2, .msg (.audioChunk sampleBytes)), (3, .userEnd)]

/-- Counterexample to C7 as stated: right after teardown the two decoded
chunks are still in the PlaybackQueue and both the armed stuck-phase
timer and the goodbye timer are still pending; nothing was cancelled,
cleared or reset. -/
theorem teardown_leaves_queue_and_timers :
    (run listeningState c7Trace).audioBufferQueue.length = 2 ∧
    (run listeningState c7Trace).pendingTimers
      = [⟨15001, .guard⟩, ⟨8003, .goodbye⟩] := by
  refine ⟨by decide, by decide⟩

/-! ### Claim C3: the stuck-phase guard -/

theorem hacEnqueue_guardTimersSet (now : ℤ) (pcm : List ℚ)
    (s : AgentState) :
    (hacEnqueue now pcm s).guardTimersSet = s.guardTimersSet := by
  rw [hacEnqueue]
  dsimp only
  split
  · split
    · rw [startBufferedPlayback]
      split
      · simp [initializeAudioPlayback, resetAudioPlaybackState]
      · simp
    · split <;> simp
  · rfl

theorem hacEnqueue_isAudioPlaying (now : ℤ) (pcm : List ℚ)
    (s : AgentState) (hctx : s.audioPlaybackContext = true) :
    (hacEnqueue now pcm s).isAudioPlaying = s.isAudioPlaying ∨
      (hacEnqueue now pcm s).isAudioPlaying = true := by
  rw [hacEnqueue]
  dsimp only
  split
  · split
    · right
      rw [startBufferedPlayback]
      split
      · next hc => simp [hctx] at hc
      · simp
    · split
      · left
        simp
      · left
        simp
  · left
    rfl

/-- One audio chunk arms at most one guard timer: if audio was already
flagged as playing nothing is armed, otherwise at most one timer is armed
and the playing flag is set either way. -/
theorem handleAudioChunk_arm (now : ℤ) (b : List ℕ) (s : AgentState)
    (hctx : s.audioPlaybackContext = true) :
    (handleAudioChunk now b s).audioPlaybackContext = true ∧
    (s.isAudioPlaying = true →
      (handleAudioChunk now b s).isAudioPlaying = true ∧
      (handleAudioChunk now b s).guardTimersSet = s.guardTimersSet) ∧
    (s.isAudioPlaying = false →
      (handleAudioChunk now b s).isAudioPlaying = true ∧
      (handleAudioChunk now b s).guardTimersSet ≤ s.guardTimersSet + 1) := by
  rw [handleAudioChunk]
  cases hres : base64ToPCMFloat32 (hacPhase s).wavHeaderProcessed b with
  | none =>
    dsimp only
    refine ⟨by simp [hctx], ?_, ?_⟩
    · intro hp
      refine ⟨hacArmGuard_isAudioPlaying _ _, ?_⟩
      rw [hacArmGuard_guardTimersSet]
      simp [hp]
    · intro hp
      refine ⟨hacArmGuard_isAudioPlaying _ _, ?_⟩
      rw [hacArmGuard_guardTimersSet]
      simp [hp]
  | some pcm =>
    dsimp only
    have hctx2 : (hacFlag (hacPhase s)).audioPlaybackContext = true := by
      simp [hctx]
    have hEctx := hacEnqueue_ctx now pcm _ hctx2
    have hEset := hacEnqueue_guardTimersSet now pcm (hacFlag (hacPhase s))
    refine ⟨by simp [hEctx], ?_, ?_⟩
    · intro hp
      have hEplay : (hacEnqueue now pcm
          (hacFlag (hacPhase s))).isAudioPlaying = true := by
        rcases hacEnqueue_isAudioPlaying now pcm _ hctx2 with he | he
        · rw [he]
          simp [hp]
        · exact he
      refine ⟨hacArmGuard_isAudioPlaying _ _, ?_⟩
      rw [hacArmGuard_guardTimersSet, hEplay, hEset]
      simp
    · intro hp
      refine ⟨hacArmGuard_isAudioPlaying _ _, ?_⟩
      rw [hacArmGuard_guardTimersSet, hEset]
      have h3 : (hacFlag (hacPhase s)).guardTimersSet = s.guardTimersSet := by
        simp
      rw [h3]
      split <;> omega

/-- While the playing flag is set, chunk events never arm a guard timer. -/
theorem playChunks_noArm (tr : List (ℤ × List ℕ)) :
    ∀ s : AgentState, s.audioPlaybackContext = true →
      s.isAudioPlaying = true →
      (playChunks s tr).guardTimersSet = s.guardTimersSet ∧
      (playChunks s tr).isAudioPlaying = true ∧
      (playChunks s tr).audioPlaybackContext = true := by
  induction tr with
  | nil =>
    intro s hc hp
    exact ⟨rfl, hp, hc⟩
  | cons p rest ih =>
    intro s hc hp
    rw [playChunks_cons]
    obtain ⟨hctx', htrue, _⟩ := handleAudioChunk_arm p.1 p.2 s hc
    obtain ⟨h1, h2⟩ := htrue hp
    obtain ⟨i1, i2, i3⟩ := ih _ hctx' h1
    exact ⟨i1.trans h2, i2, i3⟩

/-- Within a chunk-only run of a Speaking phase whose scheduler is
initialized, at most one guard timer is armed in total. -/
theorem playChunks_armAtMostOnce (tr : List (ℤ × List ℕ))
    (s : AgentState) (hc : s.audioPlaybackContext = true)
    (hp : s.isAudioPlaying = false) :
    (playChunks s tr).guardTimersSet ≤ s.guardTimersSet + 1 := by
  cases tr with
  | nil => exact Nat.le_succ _
  | cons p rest =>
    rw [playChunks_cons]
    obtain ⟨hctx', _, hfalse⟩ := handleAudioChunk_arm p.1 p.2 s hc
    obtain ⟨h1, h2⟩ := hfalse hp
    obtain ⟨i1, _, _⟩ := playChunks_noArm rest _ hctx' h1
    rw [i1]
    exact h2

/-- Claim C3 (amended): the stuck-phase guard is a no-op unless the phase
is still Speaking and the session still active; when it does fire it
forces the completion path exactly as a proper `audio_complete` would
(arming the drain timer with the fabricated chunk count queue + 1 and
counting one firing); and within a Speaking phase whose scheduler is
initialized and which consists of audio-chunk events only (no mid-phase
`chat_complete`), at most one guard timer is ever armed.  The original
claim that the guard never fires once a proper completion signal has been
processed is refuted by `guard_fires_after_completion`. -/
theorem stuck_guard_behaviour :
    (∀ (t : ℤ) (s : AgentState),
      ¬(s.conversationState = .speaking ∧ s.isConversationActive = true) →
      fireTimer t .guard s = s) ∧
    (∀ (t : ℤ) (s : AgentState),
      s.conversationState = .speaking → s.isConversationActive = true →
      (fireTimer t .guard s).pendingTimers
        = s.pendingTimers ++
            [⟨t + max 2000
                (min ((1000 * (s.audioBufferQueue.length + 1) : ℕ) : ℤ)
                  5000), .drain⟩] ∧
      (fireTimer t .guard s).guardFires = s.guardFires + 1) ∧
    (∀ (tr : List (ℤ × List ℕ)) (s : AgentState),
      s.audioPlaybackContext = true → s.isAudioPlaying = false →
      s.guardTimersSet = 0 →
      (playChunks s tr).guardTimersSet ≤ 1) := by
  refine ⟨?_, ?_, ?_⟩
  · intro t s h
    rw [fireTimer]
    rw [if_neg h]
  · intro t s hs ha
    rw [fireTimer]
    rw [if_pos ⟨hs, ha⟩]
    constructor
    · rw [handleAudioComplete]
      dsimp only
      split <;> simp
    · rw [handleAudioComplete]
      dsimp only
      split <;> simp
  · intro tr s hctx hplay hset
    have h := playChunks_armAtMostOnce tr s hctx hplay
    rw [hset] at h
    simpa using h

/-- Witness for the amended C3: the guard is a no-op in Idle; it fires the
completion path from an active Speaking state; and a one-chunk run arms at
most one guard timer. -/
theorem stuck_guard_behaviour_witness :
    (¬(initState.conversationState = .speaking ∧
        initState.isConversationActive = true) ∧
      fireTimer 0 .guard initState = initState) ∧
    (({ phaseEntryState with conversationState := CState.speaking } :
        AgentState).conversationState = .speaking ∧
      ({ phaseEntryState with conversationState := CState.speaking } :
        AgentState).isConversationActive = true ∧
      (fireTimer 15000 .guard
          { phaseEntryState with
            conversationState := CState.speaking }).guardFires
        = { phaseEntryState with
            conversationState := CState.speaking }.guardFires + 1) ∧
    (phaseEntryState.audioPlaybackContext = true ∧
      phaseEntryState.isAudioPlaying = false ∧
      phaseEntryState.guardTimersSet = 0 ∧
      (playChunks phaseEntryState [(0, sampleBytes)]).guardTimersSet ≤ 1) :=
  ⟨⟨by decide, stuck_guard_behaviour.1 0 initState (by decide)⟩,
    ⟨rfl, rfl,
      (stuck_guard_behaviour.2.1 15000
        { phaseEntryState with conversationState := CState.speaking }
        rfl rfl).2⟩,
    ⟨by decide, by decide, by decide,
      stuck_guard_behaviour.2.2 [(0, sampleBytes)] phaseEntryState
        (by decide) (by decide) (by decide)⟩⟩

/-- The run that breaks the original C3: one chunk at time 1 (arming the
guard for 15001), a proper `audio_complete` processed at 14000 (arming the
drain for 16000); at 15001 the phase is still Speaking and the session
active, so the guard fires although completion was already processed. -/
def c3Trace : List (ℤ × Event) :=
  [(0, .msg (.chatStarted "hi")), (1, .msg (.audioChunk sampleBytes)),
   (14000, .msg (.audioComplete 1))]

/-- Counterexample to C3 as stated: running `c3Trace` to time 20000, the
guard timer fires once, and it fires after the proper completion signal
was already processed (`guardAfterComplete` is set). -/
theorem guard_fires_after_completion :
    (runTo 20000 listeningState c3Trace).guardAfterComplete = true ∧
    (runTo 20000 listeningState c3Trace).guardFires = 1 ∧
    (run listeningState c3Trace).audioCompleteMsgs = 1 ∧
    (run listeningState c3Trace).guardFires = 0 :=
  ⟨by decide, by decide, by decide, by decide⟩

/-! ### Claim C6: capture/playback sample round trip -/

/-- Claim C6: for every float sample x in [-1, 1], encoding it via the
capture path (`encodeSample`: clamp x * 32768 to [-32768, 32767] and
truncate toward zero, as `processor.onaudioprocess` does) and decoding via
the playback path (`int16ToFloat`: divide the 16-bit value by 32768, as the
sample loop of `base64ToPCMFloat32` does) yields a value in [-1, 1) that
differs from x by at most one quantization step 1/32768. -/
theorem sample_roundtrip_within_one_step (x : ℚ)
    (h1 : -1 ≤ x) (h2 : x ≤ 1) :
    -1 ≤ int16ToFloat (encodeSample x) ∧
      int16ToFloat (encodeSample x) < 1 ∧
      |int16ToFloat (encodeSample x) - x| ≤ 1 / 32768 := by
  have hu1 : (-32768 : ℚ) ≤ x * 32768 := by linarith
  have hu2 : x * 32768 ≤ 32768 := by linarith
  have hv : encodeSample x = ratTrunc (max (-32768) (min 32767 (x * 32768))) :=
    rfl
  have ht1 : (-32768 : ℚ) ≤ max (-32768) (min 32767 (x * 32768)) :=
    le_max_left _ _
  have ht2 : max (-32768) (min 32767 (x * 32768)) ≤ 32767 :=
    max_le (by norm_num) (min_le_left _ _)
  have hb1 : (-32768 : ℤ) ≤ encodeSample x := by
    rw [hv]
    unfold ratTrunc
    split
    · exact Int.le_floor.mpr (by exact_mod_cast ht1)
    · exact le_trans (Int.le_floor.mpr (by exact_mod_cast ht1))
        (Int.floor_le_ceil _)
  have hb2 : encodeSample x ≤ 32767 := by
    rw [hv]
    unfold ratTrunc
    split
    · calc ⌊max (-32768) (min 32767 (x * 32768))⌋
          ≤ ⌊(32767 : ℚ)⌋ := Int.floor_le_floor ht2
        _ = 32767 := by norm_num
    · exact Int.ceil_le.mpr (by exact_mod_cast ht2)
  have hclose : |(encodeSample x : ℚ) - x * 32768| ≤ 1 := by
    rcases le_or_lt (x * 32768) 32767 with hc | hc
    · have htu : max (-32768) (min 32767 (x * 32768)) = x * 32768 := by
        rw [min_eq_right hc, max_eq_right hu1]
      rw [hv, htu]
      unfold ratTrunc
      split
      · rw [abs_le]
        refine ⟨?_, ?_⟩
        · have := Int.sub_one_lt_floor (x * 32768)
          linarith
        · have := Int.floor_le (x * 32768)
          linarith
      · rw [abs_le]
        refine ⟨?_, ?_⟩
        · have := Int.le_ceil (x * 32768)
          linarith
        · have := Int.ceil_lt_add_one (x * 32768)
          linarith
    · have htu : max (-32768) (min 32767 (x * 32768)) = (32767 : ℚ) := by
        rw [min_eq_left (le_of_lt hc), max_eq_right (by norm_num)]
      rw [hv, htu]
      have htr : ratTrunc (32767 : ℚ) = 32767 := by
        unfold ratTrunc
        rw [if_pos (by norm_num)]
        norm_num
      rw [htr, abs_le]
      push_cast
      refine ⟨by linarith, by linarith⟩
  have hvq1 : (-32768 : ℚ) ≤ (encodeSample x : ℚ) := by exact_mod_cast hb1
  have hvq2 : (encodeSample x : ℚ) ≤ 32767 := by exact_mod_cast hb2
  refine ⟨?_, ?_, ?_⟩
  · unfold int16ToFloat
    rw [le_div_iff₀ (by norm_num : (0 : ℚ) < 32768)]
    linarith
  · unfold int16ToFloat
    rw [div_lt_iff₀ (by norm_num : (0 : ℚ) < 32768)]
    linarith
  · unfold int16ToFloat
    have hsplit : (encodeSample x : ℚ) / 32768 - x =
        ((encodeSample x : ℚ) - x * 32768) / 32768 := by ring
    rw [hsplit, abs_div, abs_of_pos (by norm_num : (0 : ℚ) < 32768),
      div_le_div_iff₀ (by norm_num : (0 : ℚ) < 32768)
        (by norm_num : (0 : ℚ) < 32768)]
    linarith

/-- Witness for C6 at the boundary sample x = 1: the hypotheses hold and
the round trip lands at 32767/32768. -/
theorem sample_roundtrip_within_one_step_witness :
    ((-1 : ℚ) ≤ 1 ∧ (1 : ℚ) ≤ 1) ∧
      (-1 ≤ int16ToFloat (encodeSample 1) ∧
        int16ToFloat (encodeSample 1) < 1 ∧
        |int16ToFloat (encodeSample 1) - 1| ≤ 1 / 32768) :=
  ⟨⟨by norm_num, le_refl 1⟩,
    sample_roundtrip_within_one_step 1 (by norm_num) (le_refl 1)⟩

end VoiceAgent
